import Mathlib

/-!
# kinematics-dynamics: joint checks, KdlSolver, screw-theory IK and the RPC responder

A shallow embedding of the parts of the repository that its specification talks about,
followed by the theorems that settle the specification's claims.

Conventions of the embedding.
* A C++ `double` is a rational number: all arithmetic is exact.
* A `std::vector<double>`, a `KDL::JntArray` and the numeric content of a `yarp::os::Bottle`
  are lists of rationals; `v[i]` is `vecAt v i`.
* A function that writes through a reference returns the new value next to its result.
* Code of YARP and KDL, and of headers of the repository whose text is not embedded here,
  is a parameter of the definitions that call it, or is modelled from the specification
  where a definition says so.
-/

set_option linter.unusedVariables false

namespace roboticslab

/-! ## Vectors -/

/-- Element access `v[i]` on a `std::vector<double>` or `KDL::JntArray`. An index past the
end is undefined in C++; it reads `0` here and the theorems state the sizes they rely on. -/
def vecAt (v : List ℚ) (i : Nat) : ℚ := v.getD i 0

/-- A vector of `n` zeros: `KDL::JntArray(n)` and `std::vector<double>(n)`. -/
def zeros (n : Nat) : List ℚ := List.replicate n 0

/-! ## BasicCartesianControl.cpp -/

/-- The constant `epsilon = 1e-5` of the anonymous namespace of BasicCartesianControl.cpp. -/
def epsilon : ℚ := 1 / 100000

/-- The function `sgn`: `(T(0) < val) - (val < T(0))`. -/
def sgn (val : ℚ) : Int := (if 0 < val then 1 else 0) - (if val < 0 then 1 else 0)

/-- The members of `BasicCartesianControl` read by the joint checks. -/
structure BasicCartesianControl where
  numSolverJoints : Nat
  qMin : List ℚ
  qMax : List ℚ
  qdotMin : List ℚ
  qdotMax : List ℚ

/-- The loop of `checkJointLimits(q)`: `remaining` iterations are left and the next one
looks at `joint`. -/
def checkJointLimitsLoop (self : BasicCartesianControl) (q : List ℚ) : Nat → Nat → Bool
  | 0, _ => true
  | remaining + 1, joint =>
    let value := vecAt q joint
    if value < vecAt self.qMin joint + epsilon ∨ value > vecAt self.qMax joint - epsilon then
      false
    else
      checkJointLimitsLoop self q remaining (joint + 1)

/-- The method `BasicCartesianControl::checkJointLimits(const std::vector<double> &q)`. -/
def checkJointLimits (self : BasicCartesianControl) (q : List ℚ) : Bool :=
  checkJointLimitsLoop self q self.numSolverJoints 0

/-- The loop of `checkJointLimits(q, qdot)`. -/
def checkJointLimitsVelLoop (self : BasicCartesianControl) (q qdot : List ℚ) : Nat → Nat → Bool
  | 0, _ => true
  | remaining + 1, joint =>
    let value := vecAt q joint
    if value < vecAt self.qMin joint + epsilon ∨ value > vecAt self.qMax joint - epsilon then
      let midRange := (vecAt self.qMax joint + vecAt self.qMin joint) / 2
      if sgn (value - midRange) = sgn (vecAt qdot joint) then
        false
      else
        checkJointLimitsVelLoop self q qdot remaining (joint + 1)
    else
      checkJointLimitsVelLoop self q qdot remaining (joint + 1)

/-- The method `BasicCartesianControl::checkJointLimits(q, qdot)`. -/
def checkJointLimitsVel (self : BasicCartesianControl) (q qdot : List ℚ) : Bool :=
  checkJointLimitsVelLoop self q qdot self.numSolverJoints 0

/-- The loop of `checkJointVelocities(qdot)`. -/
def checkJointVelocitiesLoop (self : BasicCartesianControl) (qdot : List ℚ) : Nat → Nat → Bool
  | 0, _ => true
  | remaining + 1, joint =>
    let value := vecAt qdot joint
    if value < vecAt self.qdotMin joint ∨ value > vecAt self.qdotMax joint then
      false
    else
      checkJointVelocitiesLoop self qdot remaining (joint + 1)

/-- The method `BasicCartesianControl::checkJointVelocities(qdot)`. -/
def checkJointVelocities (self : BasicCartesianControl) (qdot : List ℚ) : Bool :=
  checkJointVelocitiesLoop self qdot self.numSolverJoints 0

/-- A two-joint controller used to evaluate the joint checks. -/
def demoControl : BasicCartesianControl :=
  { numSolverJoints := 2, qMin := [-90, -45], qMax := [90, 45],
    qdotMin := [-10, -10], qdotMax := [10, 10] }

/-! ## KdlSolver: the chain and its configuration (DeviceDriverImpl.cpp) -/

/-- The values of `KDL::Joint::JointType` used by `KdlSolver::open`. -/
inductive JointType where
  | None | RotX | RotY | RotZ | TransX | TransY | TransZ
  deriving DecidableEq, Repr

/-- The frame of a segment, kept as the constructor call that `open` makes:
`KDL::Frame(rot, vec)`, `KDL::Frame::DH(a, alpha, d, theta)` or `KDL::Frame(KDL::Vector(x, y, z))`. -/
inductive SegmentFrame where
  | rotVec (rot : List ℚ) (vec : List ℚ)
  | DH (a alpha d theta : ℚ)
  | vec (x y z : ℚ)
  deriving DecidableEq, Repr

/-- The arguments of `KDL::RigidBodyInertia(mass, cog, RotationalInertia(ixx, iyy, izz, 0, 0, 0))`. -/
structure RigidBodyInertia where
  mass : ℚ
  cog : ℚ × ℚ × ℚ
  inertia : ℚ × ℚ × ℚ
  deriving DecidableEq, Repr

/-- A `KDL::Segment`: `KDL::Joint(type, scale)`, the frame to the tip and the optional inertia. -/
structure Segment where
  joint : JointType
  scale : ℚ
  frame : SegmentFrame
  inertia : Option RigidBodyInertia
  deriving DecidableEq, Repr

/-- A `KDL::Chain` is the list of its segments, in the order of `addSegment`. -/
abbrev Chain := List Segment

/-- The method `KDL::Chain::getNrOfSegments`. -/
def Chain.getNrOfSegments (chain : Chain) : Nat := chain.length

/-- The method `KDL::Chain::getNrOfJoints`: the segments whose joint is not `Joint::None`. -/
def Chain.getNrOfJoints (chain : Chain) : Nat :=
  (chain.filter (fun seg => decide (seg.joint ≠ JointType.None))).length

/-- The group `link_i` of the configuration, as `open` reads it: the four
Denavit-Hartenberg values after their `0.0` defaults, and the dynamic values, present
exactly when `mass`, `cog` and `inertia` are all given. -/
structure LinkGroup where
  offset : ℚ
  D : ℚ
  A : ℚ
  alpha : ℚ
  dynamics : Option RigidBodyInertia

/-- The group `xyzLink_i` of the configuration: `x`, `y`, `z` after their `0.0` defaults and
the text of `Type`, `none` when the key is absent. -/
structure XyzLinkGroup where
  x : ℚ
  y : ℚ
  z : ℚ
  type : Option String

/-- What `KdlSolver::open` and `retrieveJointLimits` read from `fullConfig`. A key that has a
default is `none` when absent. `link i` and `xyzLink i` are the groups `link_i` and
`xyzLink_i`, `none` when `findGroup` gives a null bottle. `mins` and `maxs` are `none` when
the key is absent, `some none` when its value is not a list, and otherwise the `asFloat64`
readings of the list. `weights` is the bottle parsed from the weights string. -/
structure Config where
  numLinks : Option Int
  gravity : Option (ℚ × ℚ × ℚ)
  H0 : Option (List ℚ)
  link : Nat → Option LinkGroup
  xyzLink : Nat → Option XyzLinkGroup
  HN : Option (List ℚ)
  ik : Option String
  weights : Option (List ℚ)
  mins : Option (Option (List ℚ))
  maxs : Option (Option (List ℚ))
  eps : Option ℚ
  maxIter : Option Int
  invKinStrategy : Option String

/-- The constant `DEFAULT_NUM_LINKS`. -/
def DEFAULT_NUM_LINKS : Int := 1

/-- The constant `DEFAULT_EPS = 1e-9`. -/
def DEFAULT_EPS : ℚ := 1 / 1000000000

/-- The constant `DEFAULT_MAXITER`. -/
def DEFAULT_MAXITER : Int := 1000

/-- The constant `DEFAULT_IK_SOLVER`. -/
def DEFAULT_IK_SOLVER : String := "lma"

/-- The bottle parsed from `DEFAULT_LMA_WEIGHTS = "1 1 1 0.1 0.1 0.1"`. -/
def DEFAULT_LMA_WEIGHTS : List ℚ := [1, 1, 1, 1 / 10, 1 / 10, 1 / 10]

/-- The constant `DEFAULT_STRATEGY`. -/
def DEFAULT_STRATEGY : String := "leastOverallAngularDisplacement"

/-- The 4x4 identity, row by row: `yarp::sig::Matrix::eye`. -/
def eye4 : List ℚ := [1, 0, 0, 0, 0, 1, 0, 0, 0, 0, 1, 0, 0, 0, 0, 1]

/-- The function `getMatrixFromProperties` for a 4x4 matrix: `none` when the tag is absent
(the function returns false); otherwise the matrix, row by row, is zeroed and its first
`min(size, 16)` entries are taken from the bottle. -/
def getMatrixFromProperties (bH : Option (List ℚ)) : Option (List ℚ) :=
  bH.map (fun b => (List.range 16).map (fun cnt => vecAt b cnt))

/-- The frame `KDL::Frame(kdlRot, kdlVec)` that `open` builds from a 4x4 matrix `H`:
the rotation is the upper left 3x3 block and the vector the first three rows of column 3. -/
def frameOfMatrix (H : List ℚ) : SegmentFrame :=
  SegmentFrame.rotVec
    [vecAt H 0, vecAt H 1, vecAt H 2, vecAt H 4, vecAt H 5, vecAt H 6, vecAt H 8, vecAt H 9, vecAt H 10]
    [vecAt H 3, vecAt H 7, vecAt H 11]

/-- The function `parseLmaFromBottle`: `none` when the bottle does not have six entries. -/
def parseLmaFromBottle (b : List ℚ) : Option (List ℚ) :=
  if b.length ≠ 6 then none else some b

/-- The loop of `retrieveJointLimits`: `remaining` iterations are left and the next one
writes `motor`. The arrays are returned as the loop leaves them. -/
def retrieveJointLimitsLoop (degToRad : ℚ → ℚ) (mins maxs : List ℚ) :
    Nat → Nat → List ℚ → List ℚ → Bool × List ℚ × List ℚ
  | 0, _, qMin, qMax => (true, qMin, qMax)
  | remaining + 1, motor, qMin, qMax =>
    let qMax := qMax.set motor (degToRad (vecAt maxs motor))
    let qMin := qMin.set motor (degToRad (vecAt mins motor))
    if vecAt qMin motor = vecAt qMax motor then
      retrieveJointLimitsLoop degToRad mins maxs remaining (motor + 1) qMin qMax
    else if vecAt qMin motor > vecAt qMax motor then
      (false, qMin, qMax)
    else
      retrieveJointLimitsLoop degToRad mins maxs remaining (motor + 1) qMin qMax

/-- The function `retrieveJointLimits(options, qMin, qMax)`; `KinRepresentation::degToRad`
is a parameter. The result is the returned flag with `qMin` and `qMax` as they are left. -/
def retrieveJointLimits (degToRad : ℚ → ℚ) (options : Config) (qMin qMax : List ℚ) :
    Bool × List ℚ × List ℚ :=
  let nrOfJoints := qMin.length
  match options.mins, options.maxs with
  | some minsValue, some maxsValue =>
    match maxsValue, minsValue with
    | some maxs, some mins =>
      if maxs.length < nrOfJoints ∨ mins.length < nrOfJoints then
        (false, qMin, qMax)
      else
        retrieveJointLimitsLoop degToRad mins maxs nrOfJoints 0 qMin qMax
    | _, _ => (false, qMin, qMax)
  | _, _ => (false, qMin, qMax)

/-- The segment that `open` adds for the group `xyzLink_i`, `none` when the joint type is not
recognized (a warning is logged and no segment is added). -/
def xyzLinkSegment (b : XyzLinkGroup) : Option Segment :=
  let linkType := b.type.getD "NULL"
  let frame := SegmentFrame.vec b.x b.y b.z
  if linkType = "RotX" then some ⟨JointType.RotX, 1, frame, none⟩
  else if linkType = "RotY" then some ⟨JointType.RotY, 1, frame, none⟩
  else if linkType = "RotZ" then some ⟨JointType.RotZ, 1, frame, none⟩
  else if linkType = "InvRotX" then some ⟨JointType.RotX, -1, frame, none⟩
  else if linkType = "InvRotY" then some ⟨JointType.RotY, -1, frame, none⟩
  else if linkType = "InvRotZ" then some ⟨JointType.RotZ, -1, frame, none⟩
  else if linkType = "TransX" then some ⟨JointType.TransX, 1, frame, none⟩
  else if linkType = "TransY" then some ⟨JointType.TransY, 1, frame, none⟩
  else if linkType = "TransZ" then some ⟨JointType.TransZ, 1, frame, none⟩
  else if linkType = "InvTransX" then some ⟨JointType.TransX, -1, frame, none⟩
  else if linkType = "InvTransY" then some ⟨JointType.TransY, -1, frame, none⟩
  else if linkType = "InvTransZ" then some ⟨JointType.TransZ, -1, frame, none⟩
  else none

/-- The segment that `open` adds for the group `link_i`: a `RotZ` joint with the
Denavit-Hartenberg frame, and the inertia when the dynamic values are given. -/
def linkSegment (degToRad : ℚ → ℚ) (bLink : LinkGroup) : Segment :=
  ⟨JointType.RotZ, 1,
    SegmentFrame.DH bLink.A (degToRad bLink.alpha) bLink.D (degToRad bLink.offset),
    bLink.dynamics⟩

/-- The `links` loop of `open`: `remaining` iterations are left and the next one looks at
`linkIndex`. The flag is false when the loop leaves `open` with `return false`. -/
def addLinks (degToRad : ℚ → ℚ) (fullConfig : Config) : Nat → Nat → Chain → Bool × Chain
  | 0, _, chain => (true, chain)
  | remaining + 1, linkIndex, chain =>
    match fullConfig.link linkIndex with
    | some bLink =>
      addLinks degToRad fullConfig remaining (linkIndex + 1) (chain ++ [linkSegment degToRad bLink])
    | none =>
      match fullConfig.xyzLink linkIndex with
      | none => (false, chain)
      | some bXyzLink =>
        match xyzLinkSegment bXyzLink with
        | some seg => addLinks degToRad fullConfig remaining (linkIndex + 1) (chain ++ [seg])
        | none => addLinks degToRad fullConfig remaining (linkIndex + 1) chain

/-- The two factories of ConfigurationSelector.hpp that `open` constructs from the joint
limits. -/
inductive ConfigurationSelectorFactory where
  | LeastOverallAngularDisplacement (qMin qMax : List ℚ)
  | HumanoidGait (qMin qMax : List ℚ)
  deriving DecidableEq, Repr

/-- The lower limits a factory was constructed with. -/
def ConfigurationSelectorFactory.qMin : ConfigurationSelectorFactory → List ℚ
  | LeastOverallAngularDisplacement qMin _ => qMin
  | HumanoidGait qMin _ => qMin

/-- The upper limits a factory was constructed with. -/
def ConfigurationSelectorFactory.qMax : ConfigurationSelectorFactory → List ℚ
  | LeastOverallAngularDisplacement _ qMax => qMax
  | HumanoidGait _ qMax => qMax

/-- The position IK solver that `open` stores in `ikSolverPos`, kept as the constructor
call; `S` is the type of the solvers that `ChainIkSolverPos_ST::create` returns. -/
inductive IkSolverPos (S : Type) where
  | LMA (chain : Chain) (L : List ℚ)
  | NR_JL (chain : Chain) (qMin qMax : List ℚ) (maxIter : Int) (eps : ℚ)
  | ST (solver : S)
  | ID (chain : Chain) (qMin qMax : List ℚ)

/-- The members of `KdlSolver` that `open` writes. The velocity, forward and dynamics
solvers are built from `chain` and `gravity` alone. -/
structure KdlSolver (S : Type) where
  chain : Chain
  originalChain : Chain
  gravity : ℚ × ℚ × ℚ
  ikSolverPos : Option (IkSolverPos S)

/-- A `KdlSolver` as constructed, before `open`. -/
def KdlSolver.fresh (S : Type) : KdlSolver S :=
  { chain := [], originalChain := [], gravity := (0, 0, 0), ikSolverPos := none }

/-- The strategy branch of `open` for `ik == "st"`: the factory constructed for the strategy
name, `none` for an unsupported name. -/
def strategyFactory (strategy : String) (qMin qMax : List ℚ) : Option ConfigurationSelectorFactory :=
  if strategy = "leastOverallAngularDisplacement" then
    some (ConfigurationSelectorFactory.LeastOverallAngularDisplacement qMin qMax)
  else if strategy = "humanoidGait" then
    some (ConfigurationSelectorFactory.HumanoidGait qMin qMax)
  else
    none

/-- The method `KdlSolver::open`, from the point where `fullConfig` has been assembled.
`KinRepresentation::degToRad` and `ChainIkSolverPos_ST::create` are parameters. The result
is the returned flag and the members as `open` leaves them. -/
def kdlSolverOpen {S : Type} (degToRad : ℚ → ℚ)
    (create : Chain → ConfigurationSelectorFactory → Option S)
    (self : KdlSolver S) (fullConfig : Config) : Bool × KdlSolver S :=
  let numLinks := fullConfig.numLinks.getD DEFAULT_NUM_LINKS
  let gravity := fullConfig.gravity.getD (0, 0, -981 / 100)
  let ymH0 := (getMatrixFromProperties fullConfig.H0).getD eye4
  let chain0 := self.chain ++ [⟨JointType.None, 1, frameOfMatrix ymH0, none⟩]
  match addLinks degToRad fullConfig numLinks.toNat 0 chain0 with
  | (false, chain) => (false, { self with chain := chain })
  | (true, chainL) =>
    let ymHN := (getMatrixFromProperties fullConfig.HN).getD eye4
    let chain := chainL ++ [⟨JointType.None, 1, frameOfMatrix ymHN, none⟩]
    let built : KdlSolver S := { self with chain := chain, gravity := gravity }
    let ik := fullConfig.ik.getD DEFAULT_IK_SOLVER
    if ik = "lma" then
      match parseLmaFromBottle (fullConfig.weights.getD DEFAULT_LMA_WEIGHTS) with
      | none => (false, built)
      | some L =>
        (true, { built with ikSolverPos := some (IkSolverPos.LMA chain L), originalChain := chain })
    else if ik = "nrjl" then
      match retrieveJointLimits degToRad fullConfig (zeros chain.getNrOfJoints)
          (zeros chain.getNrOfJoints) with
      | (false, _, _) => (false, built)
      | (true, qMin, qMax) =>
        let eps := fullConfig.eps.getD DEFAULT_EPS
        let maxIter := fullConfig.maxIter.getD DEFAULT_MAXITER
        (true, { built with
          ikSolverPos := some (IkSolverPos.NR_JL chain qMin qMax maxIter eps),
          originalChain := chain })
    else if ik = "st" then
      match retrieveJointLimits degToRad fullConfig (zeros chain.getNrOfJoints)
          (zeros chain.getNrOfJoints) with
      | (false, _, _) => (false, built)
      | (true, qMin, qMax) =>
        let strategy := fullConfig.invKinStrategy.getD DEFAULT_STRATEGY
        match strategyFactory strategy qMin qMax with
        | none => (false, built)
        | some factory =>
          match create chain factory with
          | none => (false, { built with ikSolverPos := none })
          | some solver =>
            (true, { built with ikSolverPos := some (IkSolverPos.ST solver), originalChain := chain })
    else if ik = "id" then
      match retrieveJointLimits degToRad fullConfig (zeros chain.getNrOfJoints)
          (zeros chain.getNrOfJoints) with
      | (false, _, _) => (false, built)
      | (true, qMin, qMax) =>
        (true, { built with ikSolverPos := some (IkSolverPos.ID chain qMin qMax), originalChain := chain })
    else
      (false, built)

/-- A conversion from degrees to radians used to evaluate the solver: `deg * (355 / 113) / 180`. -/
def demoDegToRad (deg : ℚ) : ℚ := deg * (355 / 113) / 180

/-- The inverse conversion of `demoDegToRad`. -/
def demoRadToDeg (rad : ℚ) : ℚ := rad * 180 / (355 / 113)

/-- A configuration with two `xyzLink` joints, joint limits and no IK algorithm chosen. -/
def demoConfig : Config :=
  { numLinks := some 2, gravity := none, H0 := none,
    link := fun _ => none,
    xyzLink := fun i =>
      if i = 0 then some ⟨0, 0, 1, some "RotZ"⟩
      else if i = 1 then some ⟨1, 0, 0, some "RotY"⟩
      else none,
    HN := none, ik := none, weights := none,
    mins := some (some [-90, 30, 7]), maxs := some (some [90, 30, 5]),
    eps := none, maxIter := none, invKinStrategy := none }

/-! ## KdlSolver: inverse kinematics (ICartesianSolverImpl.cpp) -/

/-- The enumeration `ICartesianSolver::reference_frame`: its two enumerators, and `other`
for any other value cast to the enumeration. -/
inductive reference_frame where
  | BASE_FRAME
  | TCP_FRAME
  | other (value : Int)
  deriving DecidableEq, Repr

/-- The collaborators of `KdlSolver::invKin`; `F` is the type of `KDL::Frame`.
`vectorToFrame` is `KdlVectorConverter::vectorToFrame`, `frameMul` the product of frames,
`JntToCart q` the frame that `fkSolverPos->JntToCart(q, fOutCart)` leaves in `fOutCart`,
`CartToJnt qInit pIn qOut` the code returned by `ikSolverPos->CartToJnt` with the array it
leaves in `qOut`, and `degToRad` and `radToDeg` the conversions of `KinRepresentation`. -/
structure KdlCollaborators (F : Type) where
  vectorToFrame : List ℚ → F
  frameMul : F → F → F
  JntToCart : List ℚ → F
  CartToJnt : List ℚ → F → List ℚ → Int × List ℚ
  degToRad : ℚ → ℚ
  radToDeg : ℚ → ℚ

/-- The array `qGuessInRad` of `invKin`: `degToRad(qGuess[motor])` for every joint. -/
def qGuessInRad {F : Type} (K : KdlCollaborators F) (chain : Chain) (qGuess : List ℚ) : List ℚ :=
  (List.range chain.getNrOfJoints).map (fun motor => K.degToRad (vecAt qGuess motor))

/-- The frame handed to the position solver by `invKin`: `none` when the reference frame
is unsupported (`invKin` returns false before calling the solver). -/
def invKinTarget {F : Type} (K : KdlCollaborators F) (chain : Chain) (xd qGuess : List ℚ)
    (frame : reference_frame) : Option F :=
  let frameXd := K.vectorToFrame xd
  if frame = reference_frame.TCP_FRAME then
    some (K.frameMul (K.JntToCart (qGuessInRad K chain qGuess)) frameXd)
  else if frame ≠ reference_frame.BASE_FRAME then
    none
  else
    some frameXd

/-- The method `KdlSolver::invKin(xd, qGuess, q, frame)`: the returned flag and `q` as it is
left. -/
def invKin {F : Type} (K : KdlCollaborators F) (chain : Chain) (xd qGuess q : List ℚ)
    (frame : reference_frame) : Bool × List ℚ :=
  match invKinTarget K chain xd qGuess frame with
  | none => (false, q)
  | some frameXd =>
    let solved := K.CartToJnt (qGuessInRad K chain qGuess) frameXd (zeros chain.getNrOfJoints)
    let ret := solved.1
    let kdlq := solved.2
    if ret < 0 then
      (false, q)
    else
      (true, (List.range chain.getNrOfJoints).map (fun motor => K.radToDeg (vecAt kdlq motor)))

/-- A chain with two joints between the fixed segments `H0` and `HN`. -/
def demoChain : Chain :=
  [⟨JointType.None, 1, frameOfMatrix eye4, none⟩,
   ⟨JointType.RotZ, 1, SegmentFrame.vec 0 0 1, none⟩,
   ⟨JointType.RotY, 1, SegmentFrame.vec 1 0 0, none⟩,
   ⟨JointType.None, 1, frameOfMatrix eye4, none⟩]

/-- Collaborators whose frames are rationals: the position solver fails with `-1` on a
negative target, warns with `1` on a zero target, and returns the seed shifted by one. -/
def demoCollaborators : KdlCollaborators ℚ :=
  { vectorToFrame := fun xd => vecAt xd 0,
    frameMul := fun a b => a + b,
    JntToCart := fun _ => 0,
    CartToJnt := fun qInit pIn _ =>
      (if pIn < 0 then -1 else if pIn = 0 then 1 else 0, qInit.map (fun v => v + 1)),
    degToRad := fun deg => deg / 2,
    radToDeg := fun rad => rad * 2 }

/-- The configuration `demoConfig` with the IK algorithm `st`. -/
def demoConfigST : Config := { demoConfig with ik := some "st" }

/-- A stand-in for `ChainIkSolverPos_ST::create` that never finds a solver. -/
def demoCreateNone (_ : Chain) (_ : ConfigurationSelectorFactory) : Option Unit := none

/-! ## Configuration selector

`KdlSolver::open` constructs the selector factories of ConfigurationSelector.hpp; the
selector itself is described by section 4.5 of the specification. -/

/-- Modelled from the spec: the Configuration Selector of section 4.5 (the code of
ConfigurationSelector is missing). It holds the joint limits, the small epsilon margin of
its limit filter and its injectable distance metric `metric reference candidate`. -/
structure ConfigurationSelector where
  qMin : List ℚ
  qMax : List ℚ
  margin : ℚ
  metric : List ℚ → List ℚ → ℚ

/-- Modelled from the spec: the limit filter of `select` (section 4.5), missing with
ConfigurationSelector. A candidate is filtered out when some joint value is outside its
`[min, max]` limit, taken with the epsilon margin that rejects a value on the boundary. -/
def ConfigurationSelector.withinLimits (sel : ConfigurationSelector) (c : List ℚ) : Bool :=
  (List.range c.length).all (fun j =>
    !decide (vecAt c j < vecAt sel.qMin j + sel.margin ∨ vecAt c j > vecAt sel.qMax j - sel.margin))

/-- Modelled from the spec: the minimum-score survivor of `select` (section 4.5), missing
with ConfigurationSelector; `none` for an empty list, the earliest candidate among equal
scores. -/
def minimumScore (score : List ℚ → ℚ) : List (List ℚ) → Option (List ℚ)
  | [] => none
  | c :: rest =>
    match minimumScore score rest with
    | none => some c
    | some best => if score best < score c then some best else some c

/-- Modelled from the spec: `select(candidates, reference, limits)` of section 4.5, missing
with ConfigurationSelector: filter by the limits, then return the survivor of minimum score
against `reference`, or the no-solution result `none`. -/
def ConfigurationSelector.select (sel : ConfigurationSelector) (candidates : List (List ℚ))
    (reference : List ℚ) : Option (List ℚ) :=
  minimumScore (sel.metric reference) (candidates.filter sel.withinLimits)

/-- Modelled from the spec: the metric "sum of absolute per-joint angular displacement" of
section 4.5, missing with ConfigurationSelector. -/
def overallAngularDisplacement (reference c : List ℚ) : ℚ :=
  ((List.range c.length).map (fun j => |vecAt c j - vecAt reference j|)).sum

/-- Modelled from the spec: the selector that a factory creates, missing with
ConfigurationSelector: it filters with the limits the factory was constructed with; the
margin and the gait-aware metric, which the specification leaves open, are parameters. -/
def ConfigurationSelectorFactory.create (margin : ℚ) (gaitMetric : List ℚ → List ℚ → ℚ) :
    ConfigurationSelectorFactory → ConfigurationSelector
  | LeastOverallAngularDisplacement qMin qMax => ⟨qMin, qMax, margin, overallAngularDisplacement⟩
  | HumanoidGait qMin qMax => ⟨qMin, qMax, margin, gaitMetric⟩

/-! ## Screw-theory IK problem (ScrewTheoryIkProblem.hpp)

The header declares the classes; the body of `ScrewTheoryIkProblem::solve` is described by
section 4.3 of the specification. -/

/-- One element of the result of `ScrewTheoryIkSubproblem::solve`: a
`std::vector< std::pair<int, double> >` of (joint index, value) pairs. -/
abbrev JointAssignment := List (Nat × ℚ)

/-- A `KDL::Vector`. -/
abbrev Vector3 := ℚ × ℚ × ℚ

/-- The class `ScrewTheoryIkSubproblem`: its pure virtual method `solve(rhs)`. -/
structure ScrewTheoryIkSubproblem where
  solve : Vector3 → List JointAssignment

/-- The class `ScrewTheoryIkProblem`: the steps it owns, the member
`std::vector<ScrewTheoryIkSubproblem *> steps`. -/
structure ScrewTheoryIkProblem where
  steps : List ScrewTheoryIkSubproblem

/-- Modelled from the spec: the candidates of one call of `solve` (the body of
ScrewTheoryIkProblem::solve is missing): the pipeline is walked in order (section 4.3) and
the solver of step `index` is invoked once, on the target vector `rhs H_S_T index` that the
call derives from the target pose for that step. The result lists, step by step, the
candidates returned. `P` is the type of `KDL::Frame`. -/
def stepCandidates {P : Type} (rhs : P → Nat → Vector3) (H_S_T : P) :
    List ScrewTheoryIkSubproblem → Nat → List (List JointAssignment)
  | [], _ => []
  | step :: rest, index =>
    step.solve (rhs H_S_T index) :: stepCandidates rhs H_S_T rest (index + 1)

/-- Modelled from the spec: the fan-out of one step (section 4.3, missing with the body of
ScrewTheoryIkProblem::solve): every emitted candidate spawns one continuation of every
branch, and an empty candidate set prunes the branches. -/
def fanOut (candidates : List JointAssignment) (branches : List JointAssignment) :
    List JointAssignment :=
  branches.flatMap (fun b => candidates.map (fun cand => b ++ cand))

/-- Modelled from the spec: the walk of the pipeline (section 4.3, missing with the body of
ScrewTheoryIkProblem::solve) over the candidates of the remaining steps, from the branches
alive before them. -/
def walkPipeline : List (List JointAssignment) → List JointAssignment → List JointAssignment
  | [], branches => branches
  | candidates :: rest, branches => walkPipeline rest (fanOut candidates branches)

/-- Modelled from the spec: `ScrewTheoryIkProblem::solve` as sections 3 and 4.3 describe it
(its body is missing): the complete branches, one for every combination of per-subproblem
candidates, starting from the single empty branch. -/
def ScrewTheoryIkProblem.solve {P : Type} (problem : ScrewTheoryIkProblem)
    (rhs : P → Nat → Vector3) (H_S_T : P) : List JointAssignment :=
  walkPipeline (stepCandidates rhs H_S_T problem.steps 0) [[]]

/-- Modelled from the spec: the candidate counts of one call of `solve` (section 3, "the
candidate counts returned by each subproblem on that call"), one per step, in order. -/
def ScrewTheoryIkProblem.candidateCounts {P : Type} (problem : ScrewTheoryIkProblem)
    (rhs : P → Nat → Vector3) (H_S_T : P) : List Nat :=
  (stepCandidates rhs H_S_T problem.steps 0).map List.length

/-- A two-step plan: the first step returns the two values `0` and `1` of joint 0, the
second one value of joint 1 read off its target vector. -/
def demoProblem : ScrewTheoryIkProblem :=
  { steps :=
      [ ⟨fun _ => [[(0, 0)], [(0, 1)]]⟩,
        ⟨fun rhs => [[(1, rhs.1)]]⟩ ] }

/-- A three-step plan whose second step finds its target infeasible and returns no
candidate. -/
def demoInfeasibleProblem : ScrewTheoryIkProblem :=
  { steps :=
      [ ⟨fun _ => [[(0, 0)], [(0, 1)]]⟩,
        ⟨fun _ => []⟩,
        ⟨fun rhs => [[(2, rhs.1)], [(2, -rhs.1)]]⟩ ] }

/-- Target vectors for the demonstration plans: a pose is one number and every step gets
it as the first coordinate. -/
def demoRhs (H_S_T : ℚ) (_ : Nat) : Vector3 := (H_S_T, 0, 0)

/-- A selector with limits `[0, 10]` on its single joint, margin `1e-5` and the
displacement metric. -/
def demoSelector : ConfigurationSelector :=
  (ConfigurationSelectorFactory.LeastOverallAngularDisplacement [0] [10]).create epsilon
    overallAngularDisplacement

/-! ## CartesianControlServer: the RPC responder (RpcResponder.cpp) -/

/-- A `yarp::os::Value`, by its stored type. -/
inductive Value where
  | null
  | int32 (x : Int)
  | float64 (x : ℚ)
  | vocab (x : Int)
  | string (s : String)
  | list (items : List Value)

/-- A `yarp::os::Bottle` is the list of its elements. -/
abbrev Bottle := List Value

/-- The method `Bottle::get`: the null value past the end. -/
def Bottle.get (b : Bottle) (index : Nat) : Value := b.getD index Value.null

/-- The function `yarp::os::Vocab::encode`: the first four characters, least significant
byte first. -/
def vocabEncode (s : String) : Int :=
  (((s.toList.take 4).map (fun ch => (ch.toNat : Int))).foldr (fun ch acc => ch + 256 * acc) 0)

/-- The conversion of a `double` to `int`: truncation toward zero. -/
def truncToInt (x : ℚ) : Int := x.num.tdiv x.den

/-- The least value of the 32-bit `int`. -/
def INT32_MIN : Int := -2147483648

/-- The greatest value of the 32-bit `int`. -/
def INT32_MAX : Int := 2147483647

/-- The conversion of a `double` to the 32-bit `int` that `Bottle::addVocab` takes:
truncation toward zero. For a value outside the range of `int` C++ leaves the conversion
undefined; whatever the platform does the result is a 32-bit `int`, here the truncation
reduced modulo `2^32` into the range. -/
def toInt32 (x : ℚ) : Int := (truncToInt x + 2147483648) % 4294967296 - 2147483648

/-- The method `Value::asVocab`: the number of a vocab or an integer, the encoding of a
string, and `0` otherwise. -/
def Value.asVocab : Value → Int
  | Value.vocab x => x
  | Value.int32 x => x
  | Value.string s => vocabEncode s
  | _ => 0

/-- The method `Value::asFloat64`: the number of a floating point or integer value, and `0`
otherwise. -/
def Value.asFloat64 : Value → ℚ
  | Value.float64 x => x
  | Value.int32 x => x
  | _ => 0

/-- The method `Value::asList`: `none` stands for the null pointer; `isList` is `isSome`. -/
def Value.asList : Value → Option Bottle
  | Value.list items => some items
  | _ => none

/-- The vocabs of ICartesianControl.h that RpcResponder.cpp uses. -/
structure CartesianVocabs where
  OK : Int
  FAILED : Int
  STAT : Int
  INV : Int
  MOVJ : Int
  RELJ : Int
  MOVL : Int
  MOVV : Int
  GCMP : Int
  FORC : Int
  STOP : Int
  WAIT : Int
  TOOL : Int
  ACT : Int
  SET : Int
  GET : Int
  CONFIG_PARAMS : Int
  CONFIG_FRAME : Int
  CONFIG_STREAMING_CMD : Int

/-- The case labels of the `switch` of `RpcResponder::respond`, in source order. C++ accepts
the `switch` only when they are pairwise distinct. -/
def CartesianVocabs.caseLabels (V : CartesianVocabs) : List Int :=
  [V.STAT, V.INV, V.MOVJ, V.RELJ, V.MOVL, V.MOVV, V.GCMP, V.FORC, V.STOP, V.WAIT, V.TOOL,
    V.ACT, V.SET, V.GET]

/-- A `std::map<int, double>`: its entries in ascending key order. -/
abbrev ParamMap := List (Int × ℚ)

/-- The method `std::map::emplace`: the entry is inserted at its place in key order unless
the key is already present. -/
def mapEmplace : ParamMap → Int → ℚ → ParamMap
  | [], key, value => [(key, value)]
  | (k, v) :: rest, key, value =>
    if key < k then (key, value) :: (k, v) :: rest
    else if key = k then (k, v) :: rest
    else (k, v) :: mapEmplace rest key value

/-- The interface `ICartesianControl` as the responder uses it; `C` is the state of the
controller and every method returns the state it leaves. `stat` gives the flag, `x`, the
state vocab and the timestamp; `inv` the flag and the joint values; `wait` takes `none` for
a call without argument; `getParameters` gives the flag and the entries it inserts into the
map it is handed. -/
structure ICartesianControl (C : Type) where
  stat : C → (Bool × List ℚ × Int × ℚ) × C
  inv : C → List ℚ → (Bool × List ℚ) × C
  movj : C → List ℚ → Bool × C
  relj : C → List ℚ → Bool × C
  movl : C → List ℚ → Bool × C
  movv : C → List ℚ → Bool × C
  gcmp : C → Bool × C
  forc : C → List ℚ → Bool × C
  stopControl : C → Bool × C
  wait : C → Option ℚ → Bool × C
  tool : C → List ℚ → Bool × C
  act : C → Int → Bool × C
  setParameter : C → Int → ℚ → Bool × C
  getParameter : C → Int → (Bool × ℚ) × C
  setParameters : C → ParamMap → Bool × C
  getParameters : C → (Bool × List (Int × ℚ)) × C

/-- The class `RpcResponder`: the controller it talks to, its two virtual transforms (each
returns its flag and the vector as it leaves it) and `DeviceResponder::respond` of its base
class, which gives the flag and the reply. -/
structure RpcResponder (C : Type) where
  iCartesianControl : ICartesianControl C
  transformIncomingData : List ℚ → Bool × List ℚ
  transformOutgoingData : List ℚ → Bool × List ℚ
  deviceRespond : Bottle → Bottle → Bool × Bottle

/-- The result of a handler: the returned flag, the reply bottle `out` and the state of the
controller. -/
abbrev Handled (C : Type) := Bool × Bottle × C

/-- The function `isGroupParam`. -/
def isGroupParam (V : CartesianVocabs) (input : Bottle) : Bool :=
  decide (input.length > 1) && decide ((input.get 1).asVocab = V.CONFIG_PARAMS)

/-- The function `addValue`; `b.addVocab(value)` converts the `double` to `int`. -/
def addValue (V : CartesianVocabs) (b : Bottle) (vocab : Int) (value : ℚ) : Bottle :=
  if vocab = V.CONFIG_FRAME ∨ vocab = V.CONFIG_STREAMING_CMD then
    b ++ [Value.vocab (toInt32 value)]
  else
    b ++ [Value.float64 value]

/-- The function `asValue`. -/
def asValue (V : CartesianVocabs) (vocab : Int) (v : Value) : ℚ :=
  if vocab = V.CONFIG_FRAME ∨ vocab = V.CONFIG_STREAMING_CMD then
    (v.asVocab : ℚ)
  else
    v.asFloat64

/-- The vector `vin` of the command handlers: elements `1 .. size - 1` read as doubles. -/
def readCoordinates (input : Bottle) : List ℚ :=
  (input.drop 1).map Value.asFloat64

/-- The method `RpcResponder::handleStatMsg`. -/
def handleStatMsg {C : Type} (V : CartesianVocabs) (R : RpcResponder C) (ctl : C)
    (input out : Bottle) : Handled C :=
  let res := R.iCartesianControl.stat ctl
  let ok := res.1.1
  let x := res.1.2.1
  let state := res.1.2.2.1
  let timestamp := res.1.2.2.2
  if ok then
    let transformed := R.transformOutgoingData x
    if !transformed.1 then
      (false, out ++ [Value.vocab V.FAILED], res.2)
    else
      (true, out ++ [Value.vocab state] ++ transformed.2.map Value.float64
        ++ [Value.float64 timestamp], res.2)
  else
    (false, out ++ [Value.vocab V.FAILED], res.2)

/-- The method `RpcResponder::handleWaitMsg`. -/
def handleWaitMsg {C : Type} (V : CartesianVocabs) (R : RpcResponder C) (ctl : C)
    (input out : Bottle) : Handled C :=
  let res :=
    if input.length > 1 then R.iCartesianControl.wait ctl (some (input.get 1).asFloat64)
    else R.iCartesianControl.wait ctl none
  if !res.1 then
    (false, out ++ [Value.vocab V.FAILED], res.2)
  else
    (true, out ++ [Value.vocab V.OK], res.2)

/-- The method `RpcResponder::handleActMsg`. -/
def handleActMsg {C : Type} (V : CartesianVocabs) (R : RpcResponder C) (ctl : C)
    (input out : Bottle) : Handled C :=
  if input.length > 1 then
    let commandCode := (input.get 1).asVocab
    let res := R.iCartesianControl.act ctl commandCode
    if res.1 then
      (true, out ++ [Value.vocab V.OK], res.2)
    else
      (false, out ++ [Value.vocab V.FAILED], res.2)
  else
    (false, out ++ [Value.vocab V.FAILED], ctl)

/-- The method `RpcResponder::handleRunnableCmdMsg`; `cmd` is the member function. -/
def handleRunnableCmdMsg {C : Type} (V : CartesianVocabs) (R : RpcResponder C) (ctl : C)
    (input out : Bottle) (cmd : C → Bool × C) : Handled C :=
  let res := cmd ctl
  if res.1 then
    (true, out ++ [Value.vocab V.OK], res.2)
  else
    (false, out ++ [Value.vocab V.FAILED], res.2)

/-- The method `RpcResponder::handleConsumerCmdMsg`; `cmd` is the member function. -/
def handleConsumerCmdMsg {C : Type} (V : CartesianVocabs) (R : RpcResponder C) (ctl : C)
    (input out : Bottle) (cmd : C → List ℚ → Bool × C) : Handled C :=
  if input.length > 1 then
    let transformed := R.transformIncomingData (readCoordinates input)
    if !transformed.1 then
      (false, out ++ [Value.vocab V.FAILED], ctl)
    else
      let res := cmd ctl transformed.2
      if !res.1 then
        (false, out ++ [Value.vocab V.FAILED], res.2)
      else
        (true, out ++ [Value.vocab V.OK], res.2)
  else
    (false, out ++ [Value.vocab V.FAILED], ctl)

/-- The method `RpcResponder::handleFunctionCmdMsg`; `cmd` is the member function. -/
def handleFunctionCmdMsg {C : Type} (V : CartesianVocabs) (R : RpcResponder C) (ctl : C)
    (input out : Bottle) (cmd : C → List ℚ → (Bool × List ℚ) × C) : Handled C :=
  if input.length > 1 then
    let transformed := R.transformIncomingData (readCoordinates input)
    if !transformed.1 then
      (false, out ++ [Value.vocab V.FAILED], ctl)
    else
      let res := cmd ctl transformed.2
      if !res.1.1 then
        (false, out ++ [Value.vocab V.FAILED], res.2)
      else
        (true, out ++ res.1.2.map Value.float64, res.2)
  else
    (false, out ++ [Value.vocab V.FAILED], ctl)

/-- The method `RpcResponder::handleParameterSetter`. -/
def handleParameterSetter {C : Type} (V : CartesianVocabs) (R : RpcResponder C) (ctl : C)
    (input out : Bottle) : Handled C :=
  if input.length > 2 then
    let vocab := (input.get 1).asVocab
    let value := asValue V vocab (input.get 2)
    let res := R.iCartesianControl.setParameter ctl vocab value
    if !res.1 then
      (false, out ++ [Value.vocab V.FAILED], res.2)
    else
      (true, out ++ [Value.vocab V.OK], res.2)
  else
    (false, out ++ [Value.vocab V.FAILED], ctl)

/-- The method `RpcResponder::handleParameterGetter`. -/
def handleParameterGetter {C : Type} (V : CartesianVocabs) (R : RpcResponder C) (ctl : C)
    (input out : Bottle) : Handled C :=
  if input.length > 1 then
    let vocab := (input.get 1).asVocab
    let res := R.iCartesianControl.getParameter ctl vocab
    if !res.1.1 then
      (false, out ++ [Value.vocab V.FAILED], res.2)
    else
      (true, addValue V out vocab res.1.2, res.2)
  else
    (false, out ++ [Value.vocab V.FAILED], ctl)

/-- The loop of `handleParameterSetterGroup` over the elements from index 2 on: `none` when
an element is not a list of two items, otherwise the map with every pair emplaced. -/
def collectParams (V : CartesianVocabs) : List Value → ParamMap → Option ParamMap
  | [], params => some params
  | item :: rest, params =>
    match item.asList with
    | none => none
    | some b =>
      if b.length ≠ 2 then none
      else
        let vocab := (Bottle.get b 0).asVocab
        let value := asValue V vocab (Bottle.get b 1)
        collectParams V rest (mapEmplace params vocab value)

/-- The method `RpcResponder::handleParameterSetterGroup`. -/
def handleParameterSetterGroup {C : Type} (V : CartesianVocabs) (R : RpcResponder C) (ctl : C)
    (input out : Bottle) : Handled C :=
  if input.length > 2 then
    match collectParams V (input.drop 2) [] with
    | none => (false, out ++ [Value.vocab V.FAILED], ctl)
    | some params =>
      let res := R.iCartesianControl.setParameters ctl params
      if !res.1 then
        (false, out ++ [Value.vocab V.FAILED], res.2)
      else
        (true, out ++ [Value.vocab V.OK], res.2)
  else
    (false, out ++ [Value.vocab V.FAILED], ctl)

/-- The method `RpcResponder::handleParameterGetterGroup`. -/
def handleParameterGetterGroup {C : Type} (V : CartesianVocabs) (R : RpcResponder C) (ctl : C)
    (input out : Bottle) : Handled C :=
  if input.length = 2 then
    let res := R.iCartesianControl.getParameters ctl
    if !res.1.1 then
      (false, out ++ [Value.vocab V.FAILED], res.2)
    else
      let params := res.1.2.foldl (fun m entry => mapEmplace m entry.1 entry.2) []
      (true, out ++ params.map (fun it => Value.list (addValue V [Value.vocab it.1] it.1 it.2)),
        res.2)
  else
    (false, out ++ [Value.vocab V.FAILED], ctl)

/-- The method `RpcResponder::respond`: the `switch` on the first element of the request,
its cases in source order. -/
def respond {C : Type} (V : CartesianVocabs) (R : RpcResponder C) (ctl : C)
    (input out : Bottle) : Handled C :=
  let command := (input.get 0).asVocab
  if command = V.STAT then handleStatMsg V R ctl input out
  else if command = V.INV then handleFunctionCmdMsg V R ctl input out R.iCartesianControl.inv
  else if command = V.MOVJ then handleConsumerCmdMsg V R ctl input out R.iCartesianControl.movj
  else if command = V.RELJ then handleConsumerCmdMsg V R ctl input out R.iCartesianControl.relj
  else if command = V.MOVL then handleConsumerCmdMsg V R ctl input out R.iCartesianControl.movl
  else if command = V.MOVV then handleConsumerCmdMsg V R ctl input out R.iCartesianControl.movv
  else if command = V.GCMP then handleRunnableCmdMsg V R ctl input out R.iCartesianControl.gcmp
  else if command = V.FORC then handleConsumerCmdMsg V R ctl input out R.iCartesianControl.forc
  else if command = V.STOP then
    handleRunnableCmdMsg V R ctl input out R.iCartesianControl.stopControl
  else if command = V.WAIT then handleWaitMsg V R ctl input out
  else if command = V.TOOL then handleConsumerCmdMsg V R ctl input out R.iCartesianControl.tool
  else if command = V.ACT then handleActMsg V R ctl input out
  else if command = V.SET then
    if isGroupParam V input then handleParameterSetterGroup V R ctl input out
    else handleParameterSetter V R ctl input out
  else if command = V.GET then
    if isGroupParam V input then handleParameterGetterGroup V R ctl input out
    else handleParameterGetter V R ctl input out
  else
    let res := R.deviceRespond input out
    (res.1, res.2, ctl)

/-- Vocabs given by the encoding of their names. -/
def demoVocabs : CartesianVocabs :=
  { OK := vocabEncode "ok", FAILED := vocabEncode "fail", STAT := vocabEncode "stat",
    INV := vocabEncode "inv", MOVJ := vocabEncode "movj", RELJ := vocabEncode "relj",
    MOVL := vocabEncode "movl", MOVV := vocabEncode "movv", GCMP := vocabEncode "gcmp",
    FORC := vocabEncode "forc", STOP := vocabEncode "stop", WAIT := vocabEncode "wait",
    TOOL := vocabEncode "tool", ACT := vocabEncode "act", SET := vocabEncode "set",
    GET := vocabEncode "get", CONFIG_PARAMS := vocabEncode "prms",
    CONFIG_FRAME := vocabEncode "cpf", CONFIG_STREAMING_CMD := vocabEncode "cpsc" }

/-- A controller whose state is the log of the methods called on it, latest first; every
method succeeds. -/
def demoController : ICartesianControl (List String) :=
  { stat := fun log => ((true, [1, 2, 3], 7, 5), "stat" :: log),
    inv := fun log xd => ((true, xd.map (fun v => v + 1)), "inv" :: log),
    movj := fun log _ => (true, "movj" :: log),
    relj := fun log _ => (true, "relj" :: log),
    movl := fun log _ => (true, "movl" :: log),
    movv := fun log _ => (true, "movv" :: log),
    gcmp := fun log => (true, "gcmp" :: log),
    forc := fun log _ => (true, "forc" :: log),
    stopControl := fun log => (true, "stopControl" :: log),
    wait := fun log _ => (true, "wait" :: log),
    tool := fun log _ => (true, "tool" :: log),
    act := fun log _ => (true, "act" :: log),
    setParameter := fun log _ _ => (true, "setParameter" :: log),
    getParameter := fun log _ => ((true, 3), "getParameter" :: log),
    setParameters := fun log _ => (true, "setParameters" :: log),
    getParameters := fun log => ((true, [(2, 4), (1, 3)]), "getParameters" :: log) }

/-- A responder over `demoController` with identity transforms and a base responder that
fails without a reply. -/
def demoResponder : RpcResponder (List String) :=
  { iCartesianControl := demoController,
    transformIncomingData := fun vin => (true, vin),
    transformOutgoingData := fun vout => (true, vout),
    deviceRespond := fun _ out => (false, out) }

/-! ## Notions used to state the claims on the parameter maps -/

/-- The keys of a `std::map<int, double>` listing are strictly ascending. -/
def KeysAscending (m : ParamMap) : Prop := List.Pairwise (fun a b => a.1 < b.1) m

/-- The map obtained by emplacing the entries one after the other into an empty map. -/
def buildMap (entries : List (Int × ℚ)) : ParamMap :=
  entries.foldl (fun m entry => mapEmplace m entry.1 entry.2) []

/-- The pair that the loop of `handleParameterSetterGroup` reads from one element of the
request: `vocab = b->get(0).asVocab()` and `asValue(vocab, b->get(1))`. -/
def readPair (V : CartesianVocabs) (item : Value) : Int × ℚ :=
  ((Bottle.get (item.asList.getD []) 0).asVocab,
    asValue V (Bottle.get (item.asList.getD []) 0).asVocab (Bottle.get (item.asList.getD []) 1))

/-- The pairs of a group request: one per element from index 2 on. -/
def requestPairs (V : CartesianVocabs) (input : Bottle) : List (Int × ℚ) :=
  (input.drop 2).map (readPair V)

/-- An element of a request is a list of exactly two items. -/
def isPairItem (item : Value) : Prop := ∃ b, item.asList = some b ∧ b.length = 2

/-- The element that `addValue` appends for a key and a value. -/
def writtenValue (V : CartesianVocabs) (vocab : Int) (value : ℚ) : Value :=
  if vocab = V.CONFIG_FRAME ∨ vocab = V.CONFIG_STREAMING_CMD then Value.vocab (toInt32 value)
  else Value.float64 value

/-- A configuration with one link whose `xyzLink_0` group has a `Type` that is not a joint
type, and the default IK algorithm. -/
def badTypeConfig : Config :=
  { numLinks := some 1, gravity := none, H0 := none,
    link := fun _ => none,
    xyzLink := fun i => if i = 0 then some ⟨0, 0, 1, some "RotW"⟩ else none,
    HN := none, ik := none, weights := none,
    mins := none, maxs := none,
    eps := none, maxIter := none, invKinStrategy := none }

/-! # Theorems -/

/-! ## Vector access -/

theorem vecAt_set_self (l : List ℚ) (i : Nat) (v : ℚ) (h : i < l.length) :
    vecAt (l.set i v) i = v := by
  simp [vecAt, List.getD_eq_getElem?_getD, List.getElem?_set, h]

theorem vecAt_set_ne (l : List ℚ) (i j : Nat) (v : ℚ) (h : i ≠ j) :
    vecAt (l.set i v) j = vecAt l j := by
  simp [vecAt, List.getD_eq_getElem?_getD, List.getElem?_set, h]

theorem vecAt_map_range (n : Nat) (f : Nat → ℚ) (j : Nat) (h : j < n) :
    vecAt ((List.range n).map f) j = f j := by
  simp [vecAt, List.getD_eq_getElem?_getD, h]

theorem vecAt_take_append (l e : List ℚ) (n j : Nat) (h : j < n) (hl : n ≤ l.length) :
    vecAt (l.take n ++ e) j = vecAt l j := by
  have h1 : j < (l.take n).length := by
    simp only [List.length_take]
    omega
  simp [vecAt, List.getD_eq_getElem?_getD, List.getElem?_append_left h1, List.getElem?_take, h]

/-! ## The joint checks of BasicCartesianControl -/

theorem epsilon_pos : 0 < epsilon := by
  unfold epsilon
  norm_num

theorem checkJointLimitsLoop_eq_true (self : BasicCartesianControl) (q : List ℚ) (n start : Nat) :
    checkJointLimitsLoop self q n start = true ↔
      ∀ j, start ≤ j → j < start + n →
        vecAt self.qMin j + epsilon ≤ vecAt q j ∧ vecAt q j ≤ vecAt self.qMax j - epsilon := by
  induction n generalizing start with
  | zero =>
    simp only [checkJointLimitsLoop, true_iff]
    intro j h1 h2
    omega
  | succ n ih =>
    simp only [checkJointLimitsLoop]
    split
    · rename_i h
      simp only [Bool.false_eq_true, false_iff, not_forall]
      refine ⟨start, le_refl _, by omega, ?_⟩
      intro hc
      rcases h with h | h
      · exact absurd hc.1 (not_le.mpr h)
      · exact absurd hc.2 (not_le.mpr h)
    · rename_i h
      rw [ih (start + 1)]
      have h1 : vecAt self.qMin start + epsilon ≤ vecAt q start := by
        by_contra hc
        exact h (Or.inl (not_le.mp hc))
      have h2 : vecAt q start ≤ vecAt self.qMax start - epsilon := by
        by_contra hc
        exact h (Or.inr (not_le.mp hc))
      constructor
      · intro hall j hj1 hj2
        rcases Nat.eq_or_lt_of_le hj1 with heq | hlt
        · subst heq
          exact ⟨h1, h2⟩
        · exact hall j hlt (by omega)
      · intro hall j hj1 hj2
        exact hall j (by omega) (by omega)

/-- C1: for a joint vector `q` with at least `numSolverJoints` entries (and limits of that
size), `checkJointLimits(q)` returns true exactly when every solver joint `j` satisfies
`qMin[j] + epsilon <= q[j] <= qMax[j] - epsilon` with `epsilon = 1e-5`; and a joint value
equal to `qMin[j]` or to `qMax[j]` makes it return false. -/
theorem checkJointLimits_iff_within_margin (self : BasicCartesianControl) (q : List ℚ)
    (hq : self.numSolverJoints ≤ q.length)
    (hmin : self.numSolverJoints ≤ self.qMin.length)
    (hmax : self.numSolverJoints ≤ self.qMax.length) :
    epsilon = 1 / 100000 ∧
    (checkJointLimits self q = true ↔
      ∀ j, j < self.numSolverJoints →
        vecAt self.qMin j + epsilon ≤ vecAt q j ∧ vecAt q j ≤ vecAt self.qMax j - epsilon) ∧
    (∀ j, j < self.numSolverJoints →
      (vecAt q j = vecAt self.qMin j ∨ vecAt q j = vecAt self.qMax j) →
        checkJointLimits self q = false) := by
  have key := checkJointLimitsLoop_eq_true self q self.numSolverJoints 0
  have hiff : checkJointLimits self q = true ↔
      ∀ j, j < self.numSolverJoints →
        vecAt self.qMin j + epsilon ≤ vecAt q j ∧ vecAt q j ≤ vecAt self.qMax j - epsilon := by
    unfold checkJointLimits
    rw [key]
    constructor
    · intro h j hj
      exact h j (Nat.zero_le _) (by omega)
    · intro h j _ hj
      exact h j (by omega)
  refine ⟨rfl, hiff, ?_⟩
  intro j hj hb
  cases hres : checkJointLimits self q with
  | false => rfl
  | true =>
    exfalso
    have hj2 := (hiff.mp hres) j hj
    have hpos := epsilon_pos
    rcases hb with hb | hb
    · rw [hb] at hj2
      linarith [hj2.1]
    · rw [hb] at hj2
      linarith [hj2.2]

/-- The second joint sits exactly on its upper limit `45`: the check fails. -/
theorem checkJointLimits_iff_within_margin_witness :
    checkJointLimits demoControl [0, 45] = false :=
  (checkJointLimits_iff_within_margin demoControl [0, 45]
    (by decide) (by decide) (by decide)).2.2 1 (by decide)
    (Or.inr (by norm_num [vecAt, demoControl]))

/-! ## Joint limits read by KdlSolver -/

theorem retrieveJointLimitsLoop_spec (degToRad : ℚ → ℚ) (mins maxs : List ℚ) :
    ∀ (k start : Nat) (qMin qMax : List ℚ), qMax.length = qMin.length →
      start + k ≤ qMin.length →
      ((retrieveJointLimitsLoop degToRad mins maxs k start qMin qMax).1 = true ↔
        ∀ j, start ≤ j → j < start + k →
          degToRad (vecAt mins j) ≤ degToRad (vecAt maxs j)) ∧
      ((retrieveJointLimitsLoop degToRad mins maxs k start qMin qMax).1 = true →
        ∀ j, start ≤ j → j < start + k →
          vecAt (retrieveJointLimitsLoop degToRad mins maxs k start qMin qMax).2.1 j
              = degToRad (vecAt mins j) ∧
          vecAt (retrieveJointLimitsLoop degToRad mins maxs k start qMin qMax).2.2 j
              = degToRad (vecAt maxs j)) ∧
      (∀ j, j < start →
          vecAt (retrieveJointLimitsLoop degToRad mins maxs k start qMin qMax).2.1 j
              = vecAt qMin j ∧
          vecAt (retrieveJointLimitsLoop degToRad mins maxs k start qMin qMax).2.2 j
              = vecAt qMax j) := by
  intro k
  induction k with
  | zero =>
    intro start qMin qMax _ _
    simp only [retrieveJointLimitsLoop]
    refine ⟨?_, ?_, ?_⟩
    · constructor
      · intro _ j h1 h2
        omega
      · intro _
        trivial
    · intro _ j h1 h2
      omega
    · intro j _
      exact ⟨trivial, trivial⟩
  | succ k ih =>
    intro start qMin qMax hlen hbound
    have hs1 : start < qMin.length := by omega
    have hs2 : start < qMax.length := by omega
    have hmin : vecAt (qMin.set start (degToRad (vecAt mins start))) start
        = degToRad (vecAt mins start) := vecAt_set_self _ _ _ hs1
    have hmax : vecAt (qMax.set start (degToRad (vecAt maxs start))) start
        = degToRad (vecAt maxs start) := vecAt_set_self _ _ _ hs2
    have hlen2 : (qMax.set start (degToRad (vecAt maxs start))).length
        = (qMin.set start (degToRad (vecAt mins start))).length := by
      simp only [List.length_set]
      exact hlen
    have hbound2 : start + 1 + k ≤ (qMin.set start (degToRad (vecAt mins start))).length := by
      simp only [List.length_set]
      omega
    have hrec := ih (start + 1) _ _ hlen2 hbound2
    have hgo : ∀ (hle : degToRad (vecAt mins start) ≤ degToRad (vecAt maxs start)),
        ((retrieveJointLimitsLoop degToRad mins maxs k (start + 1)
            (qMin.set start (degToRad (vecAt mins start)))
            (qMax.set start (degToRad (vecAt maxs start)))).1 = true ↔
          ∀ j, start ≤ j → j < start + (k + 1) →
            degToRad (vecAt mins j) ≤ degToRad (vecAt maxs j)) ∧
        ((retrieveJointLimitsLoop degToRad mins maxs k (start + 1)
            (qMin.set start (degToRad (vecAt mins start)))
            (qMax.set start (degToRad (vecAt maxs start)))).1 = true →
          ∀ j, start ≤ j → j < start + (k + 1) →
            vecAt (retrieveJointLimitsLoop degToRad mins maxs k (start + 1)
              (qMin.set start (degToRad (vecAt mins start)))
              (qMax.set start (degToRad (vecAt maxs start)))).2.1 j
                = degToRad (vecAt mins j) ∧
            vecAt (retrieveJointLimitsLoop degToRad mins maxs k (start + 1)
              (qMin.set start (degToRad (vecAt mins start)))
              (qMax.set start (degToRad (vecAt maxs start)))).2.2 j
                = degToRad (vecAt maxs j)) ∧
        (∀ j, j < start →
            vecAt (retrieveJointLimitsLoop degToRad mins maxs k (start + 1)
              (qMin.set start (degToRad (vecAt mins start)))
              (qMax.set start (degToRad (vecAt maxs start)))).2.1 j
                = vecAt qMin j ∧
            vecAt (retrieveJointLimitsLoop degToRad mins maxs k (start + 1)
              (qMin.set start (degToRad (vecAt mins start)))
              (qMax.set start (degToRad (vecAt maxs start)))).2.2 j
                = vecAt qMax j) := by
      intro hle
      obtain ⟨h1, h2, h3⟩ := hrec
      refine ⟨?_, ?_, ?_⟩
      · rw [h1]
        constructor
        · intro hall j hj1 hj2
          rcases Nat.eq_or_lt_of_le hj1 with heq | hlt
          · subst heq
            exact hle
          · exact hall j hlt (by omega)
        · intro hall j hj1 hj2
          exact hall j (by omega) (by omega)
      · intro htrue j hj1 hj2
        rcases Nat.eq_or_lt_of_le hj1 with heq | hlt
        · subst heq
          have h := h3 start (Nat.lt_succ_self _)
          exact ⟨by rw [h.1, hmin], by rw [h.2, hmax]⟩
        · exact h2 htrue j hlt (by omega)
      · intro j hj
        have h := h3 j (by omega)
        exact ⟨by rw [h.1, vecAt_set_ne _ _ _ _ (by omega)],
          by rw [h.2, vecAt_set_ne _ _ _ _ (by omega)]⟩
    simp only [retrieveJointLimitsLoop, hmin, hmax]
    split_ifs with heq hgt
    · exact hgo (le_of_eq heq)
    · refine ⟨?_, ?_, ?_⟩
      · simp only [Bool.false_eq_true, false_iff, not_forall]
        exact ⟨start, le_refl _, by omega, not_le.mpr hgt⟩
      · intro h
        exact absurd h (by simp)
      · intro j hj
        exact ⟨vecAt_set_ne _ _ _ _ (by omega), vecAt_set_ne _ _ _ _ (by omega)⟩
    · exact hgo (not_lt.mp hgt)

theorem retrieveJointLimitsLoop_congr (degToRad : ℚ → ℚ) (mins maxs mins2 maxs2 : List ℚ) :
    ∀ (k start : Nat) (qMin qMax : List ℚ),
      (∀ j, start ≤ j → j < start + k →
        vecAt mins2 j = vecAt mins j ∧ vecAt maxs2 j = vecAt maxs j) →
      retrieveJointLimitsLoop degToRad mins2 maxs2 k start qMin qMax
        = retrieveJointLimitsLoop degToRad mins maxs k start qMin qMax := by
  intro k
  induction k with
  | zero =>
    intro start qMin qMax _
    simp only [retrieveJointLimitsLoop]
  | succ k ih =>
    intro start qMin qMax h
    have h0 := h start (le_refl _) (by omega)
    have hrec : ∀ a b, retrieveJointLimitsLoop degToRad mins2 maxs2 k (start + 1) a b
        = retrieveJointLimitsLoop degToRad mins maxs k (start + 1) a b := by
      intro a b
      exact ih (start + 1) a b (fun j hj1 hj2 => h j (by omega) (by omega))
    simp only [retrieveJointLimitsLoop, h0.1, h0.2, hrec]

theorem demoDegToRad_strictMono : StrictMono demoDegToRad := by
  intro a b h
  unfold demoDegToRad
  linarith

theorem retrieveJointLimits_present (degToRad : ℚ → ℚ) (options : Config) (qMin qMax : List ℚ)
    (mins maxs : List ℚ) (hmins : options.mins = some (some mins))
    (hmaxs : options.maxs = some (some maxs)) :
    retrieveJointLimits degToRad options qMin qMax
      = if maxs.length < qMin.length ∨ mins.length < qMin.length then (false, qMin, qMax)
        else retrieveJointLimitsLoop degToRad mins maxs qMin.length 0 qMin qMax := by
  simp only [retrieveJointLimits, hmins, hmaxs]

theorem retrieveJointLimits_true_present (degToRad : ℚ → ℚ) (options : Config)
    (qMin qMax : List ℚ) (h : (retrieveJointLimits degToRad options qMin qMax).1 = true) :
    ∃ mins maxs, options.mins = some (some mins) ∧ options.maxs = some (some maxs) := by
  rcases hm : options.mins with _ | _ | mins <;> rcases hM : options.maxs with _ | _ | maxs <;>
    simp [retrieveJointLimits, hm, hM] at h ⊢

/-- C8: `retrieveJointLimits` returns true exactly when `mins` and `maxs` are both present
as lists with at least `nrOfJoints` entries and `mins[j] <= maxs[j]` for every joint; on
success `qMin(j) = degToRad(mins[j])`, `qMax(j) = degToRad(maxs[j])` and `qMin(j) <= qMax(j)`
(equal limits pass); and the entries past `nrOfJoints` do not matter. `degToRad` is any
strictly increasing conversion. -/
theorem retrieveJointLimits_spec (degToRad : ℚ → ℚ) (hmono : StrictMono degToRad)
    (options : Config) (qMin qMax : List ℚ) (hlen : qMax.length = qMin.length) :
    ((retrieveJointLimits degToRad options qMin qMax).1 = true ↔
      ∃ mins maxs, options.mins = some (some mins) ∧ options.maxs = some (some maxs) ∧
        qMin.length ≤ mins.length ∧ qMin.length ≤ maxs.length ∧
        ∀ j, j < qMin.length → vecAt mins j ≤ vecAt maxs j) ∧
    (∀ mins maxs, options.mins = some (some mins) → options.maxs = some (some maxs) →
      (retrieveJointLimits degToRad options qMin qMax).1 = true →
      ∀ j, j < qMin.length →
        vecAt (retrieveJointLimits degToRad options qMin qMax).2.1 j = degToRad (vecAt mins j) ∧
        vecAt (retrieveJointLimits degToRad options qMin qMax).2.2 j = degToRad (vecAt maxs j) ∧
        vecAt (retrieveJointLimits degToRad options qMin qMax).2.1 j
          ≤ vecAt (retrieveJointLimits degToRad options qMin qMax).2.2 j) ∧
    (∀ mins maxs extraMins extraMaxs,
      options.mins = some (some mins) → options.maxs = some (some maxs) →
      qMin.length ≤ mins.length → qMin.length ≤ maxs.length →
      retrieveJointLimits degToRad
          { options with
            mins := some (some (mins.take qMin.length ++ extraMins)),
            maxs := some (some (maxs.take qMin.length ++ extraMaxs)) } qMin qMax
        = retrieveJointLimits degToRad options qMin qMax) := by
  refine ⟨?_, ?_, ?_⟩
  · constructor
    · intro h
      obtain ⟨mins, maxs, hmins, hmaxs⟩ := retrieveJointLimits_true_present degToRad options qMin qMax h
      rw [retrieveJointLimits_present degToRad options qMin qMax mins maxs hmins hmaxs] at h
      by_cases hsize : maxs.length < qMin.length ∨ mins.length < qMin.length
      · rw [if_pos hsize] at h
        exact absurd h (by simp)
      · rw [if_neg hsize] at h
        have hspec := retrieveJointLimitsLoop_spec degToRad mins maxs qMin.length 0 qMin qMax
          hlen (by omega)
        refine ⟨mins, maxs, hmins, hmaxs, by omega, by omega, ?_⟩
        intro j hj
        exact hmono.le_iff_le.mp ((hspec.1.mp h) j (Nat.zero_le _) (by omega))
    · rintro ⟨mins, maxs, hmins, hmaxs, h1, h2, hall⟩
      have hsize : ¬ (maxs.length < qMin.length ∨ mins.length < qMin.length) := by omega
      have hspec := retrieveJointLimitsLoop_spec degToRad mins maxs qMin.length 0 qMin qMax
        hlen (by omega)
      rw [retrieveJointLimits_present degToRad options qMin qMax mins maxs hmins hmaxs,
        if_neg hsize]
      apply hspec.1.mpr
      intro j _ hj
      exact hmono.monotone (hall j (by omega))
  · intro mins maxs hmins hmaxs h j hj
    have hspec := retrieveJointLimitsLoop_spec degToRad mins maxs qMin.length 0 qMin qMax
      hlen (by omega)
    rw [retrieveJointLimits_present degToRad options qMin qMax mins maxs hmins hmaxs] at h ⊢
    by_cases hsize : maxs.length < qMin.length ∨ mins.length < qMin.length
    · rw [if_pos hsize] at h
      exact absurd h (by simp)
    · rw [if_neg hsize] at h ⊢
      have hvals := hspec.2.1 h j (Nat.zero_le _) (by omega)
      have hle := (hspec.1.mp h) j (Nat.zero_le _) (by omega)
      refine ⟨hvals.1, hvals.2, ?_⟩
      rw [hvals.1, hvals.2]
      exact hle
  · intro mins maxs extraMins extraMaxs hmins hmaxs h1 h2
    have hsize : ¬ (maxs.length < qMin.length ∨ mins.length < qMin.length) := by omega
    have hsize2 : ¬ ((maxs.take qMin.length ++ extraMaxs).length < qMin.length ∨
        (mins.take qMin.length ++ extraMins).length < qMin.length) := by
      simp only [List.length_append, List.length_take]
      omega
    rw [retrieveJointLimits_present degToRad options qMin qMax mins maxs hmins hmaxs,
      retrieveJointLimits_present degToRad _ qMin qMax _ _ rfl rfl, if_neg hsize, if_neg hsize2]
    apply retrieveJointLimitsLoop_congr
    intro j _ hj
    exact ⟨vecAt_take_append _ _ _ _ (by omega) h1, vecAt_take_append _ _ _ _ (by omega) h2⟩

/-- With two joints, limits `[-90, 90]` and the equal pair `[30, 30]`, and a third pair
`7 > 5` that is past the joints, the limits are accepted. -/
theorem retrieveJointLimits_spec_witness :
    StrictMono demoDegToRad ∧ (zeros 2).length = (zeros 2).length ∧
      (retrieveJointLimits demoDegToRad demoConfig (zeros 2) (zeros 2)).1 = true :=
  ⟨demoDegToRad_strictMono, rfl,
    (retrieveJointLimits_spec demoDegToRad demoDegToRad_strictMono demoConfig (zeros 2) (zeros 2)
      rfl).1.mpr
      ⟨[-90, 30, 7], [90, 30, 5], rfl, rfl, by decide, by decide, by
        intro j hj
        have h2 : j < 2 := hj
        interval_cases j <;> norm_num [vecAt]⟩⟩

/-! ## KdlSolver::invKin -/

/-- C6: `invKin` returns false exactly when the frame is neither `BASE_FRAME` nor
`TCP_FRAME` or the position solver returns a negative code; with a supported frame and a
positive code it returns true; and whenever it returns false, `q` is left unchanged. -/
theorem invKin_false_iff {F : Type} (K : KdlCollaborators F) (chain : Chain)
    (xd qGuess q : List ℚ) (frame : reference_frame) :
    ((invKin K chain xd qGuess q frame).1 = false ↔
      ((frame ≠ reference_frame.BASE_FRAME ∧ frame ≠ reference_frame.TCP_FRAME) ∨
        ∃ frameXd, invKinTarget K chain xd qGuess frame = some frameXd ∧
          (K.CartToJnt (qGuessInRad K chain qGuess) frameXd (zeros chain.getNrOfJoints)).1 < 0)) ∧
    (∀ frameXd, invKinTarget K chain xd qGuess frame = some frameXd →
      0 < (K.CartToJnt (qGuessInRad K chain qGuess) frameXd (zeros chain.getNrOfJoints)).1 →
        (invKin K chain xd qGuess q frame).1 = true) ∧
    ((invKin K chain xd qGuess q frame).1 = false →
      (invKin K chain xd qGuess q frame).2 = q) := by
  cases frame with
  | BASE_FRAME =>
    simp only [invKin, invKinTarget]
    refine ⟨?_, ?_, ?_⟩
    · simp
      split_ifs with h <;> simp [h]
    · intro frameXd hf hpos
      simp at hf
      subst hf
      simp [not_lt.mpr (le_of_lt hpos)]
    · simp
      split_ifs with h <;> simp
  | TCP_FRAME =>
    simp only [invKin, invKinTarget]
    refine ⟨?_, ?_, ?_⟩
    · simp
      split_ifs with h <;> simp [h]
    · intro frameXd hf hpos
      simp at hf
      subst hf
      simp [not_lt.mpr (le_of_lt hpos)]
    · simp
      split_ifs with h <;> simp
  | other value =>
    simp [invKin, invKinTarget]

theorem qGuessInRad_length {F : Type} (K : KdlCollaborators F) (chain : Chain) (qGuess : List ℚ) :
    (qGuessInRad K chain qGuess).length = chain.getNrOfJoints := by
  simp [qGuessInRad]

/-- C7: whenever `invKin` returns true, the position solver was called with a seed of
`getNrOfJoints` entries `degToRad(qGuess[j])`, and `q` has exactly `getNrOfJoints` entries
`q[j] = radToDeg(k_j)`, where `k` is the array the solver left. -/
theorem invKin_converts_units {F : Type} (K : KdlCollaborators F) (chain : Chain)
    (xd qGuess q : List ℚ) (frame : reference_frame)
    (h : (invKin K chain xd qGuess q frame).1 = true) :
    ∃ seed frameXd, invKinTarget K chain xd qGuess frame = some frameXd ∧
      seed.length = chain.getNrOfJoints ∧
      (∀ j, j < chain.getNrOfJoints → vecAt seed j = K.degToRad (vecAt qGuess j)) ∧
      0 ≤ (K.CartToJnt seed frameXd (zeros chain.getNrOfJoints)).1 ∧
      (invKin K chain xd qGuess q frame).2.length = chain.getNrOfJoints ∧
      ∀ j, j < chain.getNrOfJoints →
        vecAt (invKin K chain xd qGuess q frame).2 j
          = K.radToDeg (vecAt (K.CartToJnt seed frameXd (zeros chain.getNrOfJoints)).2 j) := by
  unfold invKin at h ⊢
  cases htarget : invKinTarget K chain xd qGuess frame with
  | none =>
    rw [htarget] at h
    exact absurd h (by simp)
  | some frameXd =>
    rw [htarget] at h
    simp only at h ⊢
    by_cases hret : (K.CartToJnt (qGuessInRad K chain qGuess) frameXd
        (zeros chain.getNrOfJoints)).1 < 0
    · rw [if_pos hret] at h
      exact absurd h (by simp)
    · rw [if_neg hret]
      refine ⟨qGuessInRad K chain qGuess, frameXd, rfl, qGuessInRad_length K chain qGuess,
        ?_, not_lt.mp hret, ?_, ?_⟩
      · intro j hj
        exact vecAt_map_range _ _ j hj
      · simp
      · intro j hj
        exact vecAt_map_range _ _ j hj

theorem demo_invKin_value :
    invKin demoCollaborators demoChain [0] [10, 20] [] reference_frame.BASE_FRAME
      = (true, [12, 22]) := by
  have hn : demoChain.getNrOfJoints = 2 := by decide
  simp only [invKin, invKinTarget, qGuessInRad, hn]
  norm_num [demoCollaborators, vecAt, List.range, List.range.loop, zeros]

/-- A pose whose solver code is the warning `1`: `invKin` returns true and `q` gets one
entry per joint. -/
theorem invKin_converts_units_witness :
    (invKin demoCollaborators demoChain [0] [10, 20] [] reference_frame.BASE_FRAME).1 = true ∧
    (invKin demoCollaborators demoChain [0] [10, 20] [] reference_frame.BASE_FRAME).2.length
      = demoChain.getNrOfJoints := by
  have h : (invKin demoCollaborators demoChain [0] [10, 20] []
      reference_frame.BASE_FRAME).1 = true := by
    rw [demo_invKin_value]
  obtain ⟨_, _, _, _, _, _, hlen, _⟩ :=
    invKin_converts_units demoCollaborators demoChain [0] [10, 20] []
      reference_frame.BASE_FRAME h
  exact ⟨h, hlen⟩

/-! ## KdlSolver::open -/

/-- C5: when the IK algorithm is `st` and `ChainIkSolverPos_ST::create` yields no solver for
the chain that `open` assembled, `open` returns false, and it leaves no position solver in
a device that had none. -/
theorem open_st_without_solver_fails {S : Type} (degToRad : ℚ → ℚ)
    (create : Chain → ConfigurationSelectorFactory → Option S)
    (self : KdlSolver S) (fullConfig : Config)
    (hik : fullConfig.ik = some "st")
    (hcreate : ∀ factory,
      create (kdlSolverOpen degToRad create self fullConfig).2.chain factory = none) :
    (kdlSolverOpen degToRad create self fullConfig).1 = false ∧
    (self.ikSolverPos = none →
      (kdlSolverOpen degToRad create self fullConfig).2.ikSolverPos = none) := by
  unfold kdlSolverOpen at hcreate ⊢
  simp only [hik, Option.getD_some] at hcreate ⊢
  split
  · exact ⟨rfl, fun h => h⟩
  · rename_i chainL hlinks
    rw [hlinks] at hcreate
    simp only [String.reduceEq, if_false, if_true] at hcreate ⊢
    split
    · exact ⟨rfl, fun h => h⟩
    · rename_i qMin qMax hlimits
      rw [hlimits] at hcreate
      simp only at hcreate ⊢
      split
      · exact ⟨rfl, fun h => h⟩
      · rename_i factory hfactory
        rw [hfactory] at hcreate
        simp only at hcreate ⊢
        split
        · exact ⟨rfl, fun _ => rfl⟩
        · rename_i solver hsolver
          rw [hsolver] at hcreate
          simp only at hcreate
          have := hcreate factory
          rw [hsolver] at this
          exact absurd this (by simp)

/-- With the IK algorithm `st`, valid limits and a builder that finds no solver, `open`
returns false. -/
theorem open_st_without_solver_fails_witness :
    demoConfigST.ik = some "st" ∧
    (kdlSolverOpen demoDegToRad demoCreateNone (KdlSolver.fresh Unit) demoConfigST).1 = false :=
  ⟨rfl, (open_st_without_solver_fails demoDegToRad demoCreateNone (KdlSolver.fresh Unit)
    demoConfigST rfl (fun _ => rfl)).1⟩

/-- C9: `open` returns false when the `ik` option is none of `lma`, `nrjl`, `st`, `id`, and
when it is `st` and `invKinStrategy` is neither `leastOverallAngularDisplacement` nor
`humanoidGait`; with `st`, a successful `open` called `ChainIkSolverPos_ST::create` with the
factory of the strategy name, constructed from the `qMin` and `qMax` that
`retrieveJointLimits` produced, and the two names give the two factories with the same
limits. -/
theorem open_rejects_unsupported_names {S : Type} (degToRad : ℚ → ℚ)
    (create : Chain → ConfigurationSelectorFactory → Option S)
    (self : KdlSolver S) (fullConfig : Config) :
    ((fullConfig.ik.getD DEFAULT_IK_SOLVER ≠ "lma" ∧ fullConfig.ik.getD DEFAULT_IK_SOLVER ≠ "nrjl" ∧
        fullConfig.ik.getD DEFAULT_IK_SOLVER ≠ "st" ∧ fullConfig.ik.getD DEFAULT_IK_SOLVER ≠ "id") →
      (kdlSolverOpen degToRad create self fullConfig).1 = false) ∧
    ((fullConfig.ik.getD DEFAULT_IK_SOLVER = "st" ∧
        fullConfig.invKinStrategy.getD DEFAULT_STRATEGY ≠ "leastOverallAngularDisplacement" ∧
        fullConfig.invKinStrategy.getD DEFAULT_STRATEGY ≠ "humanoidGait") →
      (kdlSolverOpen degToRad create self fullConfig).1 = false) ∧
    ((fullConfig.ik.getD DEFAULT_IK_SOLVER = "st" ∧
        (kdlSolverOpen degToRad create self fullConfig).1 = true) →
      ∃ qMin qMax factory solver,
        retrieveJointLimits degToRad fullConfig
            (zeros (kdlSolverOpen degToRad create self fullConfig).2.chain.getNrOfJoints)
            (zeros (kdlSolverOpen degToRad create self fullConfig).2.chain.getNrOfJoints)
          = (true, qMin, qMax) ∧
        strategyFactory (fullConfig.invKinStrategy.getD DEFAULT_STRATEGY) qMin qMax = some factory ∧
        factory.qMin = qMin ∧ factory.qMax = qMax ∧
        create (kdlSolverOpen degToRad create self fullConfig).2.chain factory = some solver ∧
        (kdlSolverOpen degToRad create self fullConfig).2.ikSolverPos
          = some (IkSolverPos.ST solver)) ∧
    (∀ qMin qMax,
      strategyFactory "leastOverallAngularDisplacement" qMin qMax
        = some (ConfigurationSelectorFactory.LeastOverallAngularDisplacement qMin qMax) ∧
      strategyFactory "humanoidGait" qMin qMax
        = some (ConfigurationSelectorFactory.HumanoidGait qMin qMax)) := by
  refine ⟨?_, ?_, ?_, ?_⟩
  · rintro ⟨h1, h2, h3, h4⟩
    unfold kdlSolverOpen
    simp only [h1, h2, h3, h4, if_false]
    split <;> rfl
  · rintro ⟨hst, hs1, hs2⟩
    unfold kdlSolverOpen
    simp only [hst, String.reduceEq, if_false, if_true]
    split
    · rfl
    · split
      · rfl
      · simp only [strategyFactory, hs1, hs2, if_false]
  · rintro ⟨hst, hres⟩
    unfold kdlSolverOpen at hres ⊢
    simp only [hst, String.reduceEq, if_false, if_true] at hres ⊢
    split at hres
    · exact absurd hres (by simp)
    · rename_i chainL hlinks
      split at hres
      · exact absurd hres (by simp)
      · rename_i qMin qMax hlimits
        split at hres
        · exact absurd hres (by simp)
        · rename_i factory hfactory
          split at hres
          · exact absurd hres (by simp)
          · rename_i solver hsolver
            simp only [hlimits, hfactory, hsolver]
            refine ⟨qMin, qMax, factory, solver, rfl, hfactory, ?_, ?_, hsolver, rfl⟩
            · unfold strategyFactory at hfactory
              split_ifs at hfactory <;> simp at hfactory <;> subst hfactory <;> rfl
            · unfold strategyFactory at hfactory
              split_ifs at hfactory <;> simp at hfactory <;> subst hfactory <;> rfl
  · intro qMin qMax
    exact ⟨rfl, rfl⟩

/-! ## Configuration selector -/

theorem minimumScore_mem (score : List ℚ → ℚ) :
    ∀ (l : List (List ℚ)) (r : List ℚ), minimumScore score l = some r → r ∈ l := by
  intro l
  induction l with
  | nil =>
    intro r h
    simp [minimumScore] at h
  | cons c rest ih =>
    intro r h
    simp only [minimumScore] at h
    cases hrest : minimumScore score rest with
    | none =>
      rw [hrest] at h
      simp only [Option.some.injEq] at h
      rw [← h]
      exact List.mem_cons_self _ _
    | some best =>
      rw [hrest] at h
      simp only at h
      split_ifs at h
      · simp only [Option.some.injEq] at h
        rw [← h]
        exact List.mem_cons_of_mem _ (ih best hrest)
      · simp only [Option.some.injEq] at h
        rw [← h]
        exact List.mem_cons_self _ _

theorem minimumScore_le (score : List ℚ → ℚ) :
    ∀ (l : List (List ℚ)) (r : List ℚ), minimumScore score l = some r →
      ∀ c ∈ l, score r ≤ score c := by
  intro l
  induction l with
  | nil =>
    intro r h
    simp [minimumScore] at h
  | cons c rest ih =>
    intro r h d hd
    simp only [minimumScore] at h
    cases hrest : minimumScore score rest with
    | none =>
      rw [hrest] at h
      simp only [Option.some.injEq] at h
      have hnil : rest = [] := by
        cases rest with
        | nil => rfl
        | cons a t =>
          exfalso
          simp only [minimumScore] at hrest
          cases h2 : minimumScore score t with
          | none =>
            rw [h2] at hrest
            simp at hrest
          | some b =>
            rw [h2] at hrest
            simp only at hrest
            split_ifs at hrest
      subst hnil
      rw [← h]
      simp only [List.mem_singleton] at hd
      rw [hd]
    | some best =>
      rw [hrest] at h
      simp only at h
      have hbest := ih best hrest
      rcases List.mem_cons.mp hd with hdc | hdr
      · subst hdc
        split_ifs at h with hlt
        · simp only [Option.some.injEq] at h
          rw [← h]
          exact le_of_lt hlt
        · simp only [Option.some.injEq] at h
          rw [← h]
      · split_ifs at h with hlt
        · simp only [Option.some.injEq] at h
          rw [← h]
          exact hbest d hdr
        · simp only [Option.some.injEq] at h
          rw [← h]
          exact le_trans (not_lt.mp hlt) (hbest d hdr)

theorem minimumScore_of_mem (score : List ℚ → ℚ) (l : List (List ℚ)) (c : List ℚ)
    (hc : c ∈ l) : ∃ r, minimumScore score l = some r := by
  cases l with
  | nil => simp at hc
  | cons a rest =>
    simp only [minimumScore]
    cases minimumScore score rest with
    | none => exact ⟨a, rfl⟩
    | some best =>
      simp only
      split_ifs
      · exact ⟨best, rfl⟩
      · exact ⟨a, rfl⟩

theorem withinLimits_iff (sel : ConfigurationSelector) (c : List ℚ) :
    sel.withinLimits c = true ↔
      ∀ j, j < c.length →
        vecAt sel.qMin j + sel.margin ≤ vecAt c j ∧ vecAt c j ≤ vecAt sel.qMax j - sel.margin := by
  simp only [ConfigurationSelector.withinLimits, List.all_eq_true, List.mem_range,
    Bool.not_eq_true', decide_eq_false_iff_not, not_or, not_lt]

theorem select_some_within (sel : ConfigurationSelector) (candidates : List (List ℚ))
    (reference r : List ℚ) (h : sel.select candidates reference = some r) :
    r ∈ candidates ∧ sel.withinLimits r = true := by
  have hmem := minimumScore_mem _ _ _ h
  exact ⟨(List.mem_filter.mp hmem).1, (List.mem_filter.mp hmem).2⟩

theorem create_limits (margin : ℚ) (gaitMetric : List ℚ → List ℚ → ℚ)
    (factory : ConfigurationSelectorFactory) :
    (factory.create margin gaitMetric).qMin = factory.qMin ∧
    (factory.create margin gaitMetric).qMax = factory.qMax ∧
    (factory.create margin gaitMetric).margin = margin := by
  cases factory <;> exact ⟨rfl, rfl, rfl⟩

theorem strategyFactory_limits (strategy : String) (qMin qMax : List ℚ)
    (factory : ConfigurationSelectorFactory)
    (h : strategyFactory strategy qMin qMax = some factory) :
    factory.qMin = qMin ∧ factory.qMax = qMax := by
  unfold strategyFactory at h
  split_ifs at h <;> simp at h <;> subst h <;> exact ⟨rfl, rfl⟩

/-- C2: for the selector created by the factory that `open` constructs from `qMin` and
`qMax`, and a candidate set with a candidate that passes the limit filter and a candidate
with a joint value outside its limit, `select` returns a member of the set whose every joint
value lies in `[qMin[j], qMax[j]]`, of minimum score among the candidates that pass the
filter; and on any candidate set, what `select` returns lies in the limits. -/
theorem select_never_out_of_limit (strategy : String) (qMin qMax : List ℚ)
    (factory : ConfigurationSelectorFactory)
    (hfactory : strategyFactory strategy qMin qMax = some factory)
    (margin : ℚ) (hmargin : 0 ≤ margin) (gaitMetric : List ℚ → List ℚ → ℚ)
    (candidates : List (List ℚ)) (reference : List ℚ)
    (hin : ∃ c ∈ candidates, (factory.create margin gaitMetric).withinLimits c = true)
    (hout : ∃ c ∈ candidates, ∃ j, j < c.length ∧
      (vecAt c j < vecAt qMin j ∨ vecAt qMax j < vecAt c j)) :
    (∃ r, (factory.create margin gaitMetric).select candidates reference = some r ∧
      r ∈ candidates ∧
      (∀ j, j < r.length → vecAt qMin j ≤ vecAt r j ∧ vecAt r j ≤ vecAt qMax j) ∧
      (∀ c ∈ candidates, (factory.create margin gaitMetric).withinLimits c = true →
        (factory.create margin gaitMetric).metric reference r
          ≤ (factory.create margin gaitMetric).metric reference c)) ∧
    (∀ (others : List (List ℚ)) (r : List ℚ),
      (factory.create margin gaitMetric).select others reference = some r →
      r ∈ others ∧ ∀ j, j < r.length → vecAt qMin j ≤ vecAt r j ∧ vecAt r j ≤ vecAt qMax j) := by
  obtain ⟨hqmin, hqmax⟩ := strategyFactory_limits strategy qMin qMax factory hfactory
  obtain ⟨hcmin, hcmax, hcmargin⟩ := create_limits margin gaitMetric factory
  have hsafe : ∀ (others : List (List ℚ)) (r : List ℚ),
      (factory.create margin gaitMetric).select others reference = some r →
      r ∈ others ∧ ∀ j, j < r.length → vecAt qMin j ≤ vecAt r j ∧ vecAt r j ≤ vecAt qMax j := by
    intro others r hsel
    obtain ⟨hmem, hwithin⟩ := select_some_within _ _ _ _ hsel
    refine ⟨hmem, ?_⟩
    intro j hj
    have hb := (withinLimits_iff _ r).mp hwithin j hj
    rw [hcmin, hcmax, hcmargin, hqmin, hqmax] at hb
    constructor
    · linarith [hb.1]
    · linarith [hb.2]
  refine ⟨?_, hsafe⟩
  obtain ⟨c, hc, hcin⟩ := hin
  have hcf : c ∈ candidates.filter (factory.create margin gaitMetric).withinLimits :=
    List.mem_filter.mpr ⟨hc, hcin⟩
  obtain ⟨r, hr⟩ := minimumScore_of_mem ((factory.create margin gaitMetric).metric reference) _ c hcf
  refine ⟨r, hr, (hsafe candidates r hr).1, (hsafe candidates r hr).2, ?_⟩
  intro d hd hdin
  exact minimumScore_le _ _ r hr d (List.mem_filter.mpr ⟨hd, hdin⟩)

theorem demoSelector_accepts : demoSelector.withinLimits [4] = true := by
  rw [withinLimits_iff]
  intro j hj
  have hj1 : j < 1 := hj
  interval_cases j
  norm_num [demoSelector, ConfigurationSelectorFactory.create, vecAt, epsilon]

/-- Limits `[0, 10]`, candidates `11` (outside), `4` and `7`: the selector returns a
candidate inside the limits. -/
theorem select_never_out_of_limit_witness :
    (∃ c ∈ [[11], [4], [7]], demoSelector.withinLimits c = true) ∧
    (∃ c ∈ [[(11 : ℚ)], [4], [7]], ∃ j, j < c.length ∧
      (vecAt c j < vecAt [0] j ∨ vecAt [10] j < vecAt c j)) ∧
    ∃ r, demoSelector.select [[11], [4], [7]] [6] = some r ∧ r ∈ [[(11 : ℚ)], [4], [7]] ∧
      ∀ j, j < r.length → vecAt [0] j ≤ vecAt r j ∧ vecAt r j ≤ vecAt [10] j := by
  have hin : ∃ c ∈ [[11], [4], [7]], demoSelector.withinLimits c = true :=
    ⟨[4], by simp, demoSelector_accepts⟩
  have hout : ∃ c ∈ [[(11 : ℚ)], [4], [7]], ∃ j, j < c.length ∧
      (vecAt c j < vecAt [0] j ∨ vecAt [10] j < vecAt c j) :=
    ⟨[11], by simp, 0, by simp, Or.inr (by norm_num [vecAt])⟩
  obtain ⟨r, hr, hmem, hlim, _⟩ :=
    (select_never_out_of_limit "leastOverallAngularDisplacement" [0] [10]
      (ConfigurationSelectorFactory.LeastOverallAngularDisplacement [0] [10]) rfl
      epsilon (le_of_lt epsilon_pos) overallAngularDisplacement
      [[11], [4], [7]] [6] hin hout).1
  exact ⟨hin, hout, r, hr, hmem, hlim⟩

/-! ## The branch count of the screw-theory IK problem -/

/-- Two candidates at the first step and one at the second: two complete branches. -/
theorem demoProblem_branches :
    demoProblem.candidateCounts demoRhs 3 = [2, 1] ∧
    demoProblem.solve demoRhs 3 = [[(0, 0), (1, 3)], [(0, 1), (1, 3)]] := by
  constructor <;> rfl

/-- A step without candidates: no branch is complete, whatever the other steps return. -/
theorem demoInfeasibleProblem_branches :
    demoInfeasibleProblem.candidateCounts demoRhs 3 = [2, 0, 2] ∧
    demoInfeasibleProblem.solve demoRhs 3 = [] := by
  constructor <;> rfl

/-! ## The dispatch of RpcResponder::respond -/

theorem isGroupParam_iff (V : CartesianVocabs) (input : Bottle) :
    isGroupParam V input = true ↔
      1 < input.length ∧ (input.get 1).asVocab = V.CONFIG_PARAMS := by
  simp [isGroupParam]

theorem caseLabels_getD_ne (V : CartesianVocabs) (hV : V.caseLabels.Nodup) (i j : Nat)
    (hi : i < 14) (hj : j < 14) (hij : i ≠ j) :
    V.caseLabels.getD i 0 ≠ V.caseLabels.getD j 0 := by
  have hlen : V.caseLabels.length = 14 := rfl
  intro h
  have hi2 : i < V.caseLabels.length := by omega
  have hj2 : j < V.caseLabels.length := by omega
  rw [List.getD_eq_getElem V.caseLabels 0 hi2, List.getD_eq_getElem V.caseLabels 0 hj2] at h
  exact hij ((List.Nodup.getElem_inj_iff hV).mp h)

theorem respond_at_STAT {C : Type} (V : CartesianVocabs) (hV : V.caseLabels.Nodup)
    (R : RpcResponder C) (ctl : C) (input out : Bottle)
    (h : (input.get 0).asVocab = V.STAT) :
    respond V R ctl input out
      = handleStatMsg V R ctl input out := by
  simp only [respond, h, if_false, if_true]

theorem respond_at_INV {C : Type} (V : CartesianVocabs) (hV : V.caseLabels.Nodup)
    (R : RpcResponder C) (ctl : C) (input out : Bottle)
    (h : (input.get 0).asVocab = V.INV) :
    respond V R ctl input out
      = handleFunctionCmdMsg V R ctl input out R.iCartesianControl.inv := by
  have n0 : V.INV ≠ V.STAT :=
    caseLabels_getD_ne V hV 1 0 (by omega) (by omega) (by omega)
  simp only [respond, h, n0, if_false, if_true]

theorem respond_at_MOVJ {C : Type} (V : CartesianVocabs) (hV : V.caseLabels.Nodup)
    (R : RpcResponder C) (ctl : C) (input out : Bottle)
    (h : (input.get 0).asVocab = V.MOVJ) :
    respond V R ctl input out
      = handleConsumerCmdMsg V R ctl input out R.iCartesianControl.movj := by
  have n0 : V.MOVJ ≠ V.STAT :=
    caseLabels_getD_ne V hV 2 0 (by omega) (by omega) (by omega)
  have n1 : V.MOVJ ≠ V.INV :=
    caseLabels_getD_ne V hV 2 1 (by omega) (by omega) (by omega)
  simp only [respond, h, n0, n1, if_false, if_true]

theorem respond_at_RELJ {C : Type} (V : CartesianVocabs) (hV : V.caseLabels.Nodup)
    (R : RpcResponder C) (ctl : C) (input out : Bottle)
    (h : (input.get 0).asVocab = V.RELJ) :
    respond V R ctl input out
      = handleConsumerCmdMsg V R ctl input out R.iCartesianControl.relj := by
  have n0 : V.RELJ ≠ V.STAT :=
    caseLabels_getD_ne V hV 3 0 (by omega) (by omega) (by omega)
  have n1 : V.RELJ ≠ V.INV :=
    caseLabels_getD_ne V hV 3 1 (by omega) (by omega) (by omega)
  have n2 : V.RELJ ≠ V.MOVJ :=
    caseLabels_getD_ne V hV 3 2 (by omega) (by omega) (by omega)
  simp only [respond, h, n0, n1, n2, if_false, if_true]

theorem respond_at_MOVL {C : Type} (V : CartesianVocabs) (hV : V.caseLabels.Nodup)
    (R : RpcResponder C) (ctl : C) (input out : Bottle)
    (h : (input.get 0).asVocab = V.MOVL) :
    respond V R ctl input out
      = handleConsumerCmdMsg V R ctl input out R.iCartesianControl.movl := by
  have n0 : V.MOVL ≠ V.STAT :=
    caseLabels_getD_ne V hV 4 0 (by omega) (by omega) (by omega)
  have n1 : V.MOVL ≠ V.INV :=
    caseLabels_getD_ne V hV 4 1 (by omega) (by omega) (by omega)
  have n2 : V.MOVL ≠ V.MOVJ :=
    caseLabels_getD_ne V hV 4 2 (by omega) (by omega) (by omega)
  have n3 : V.MOVL ≠ V.RELJ :=
    caseLabels_getD_ne V hV 4 3 (by omega) (by omega) (by omega)
  simp only [respond, h, n0, n1, n2, n3, if_false, if_true]

theorem respond_at_MOVV {C : Type} (V : CartesianVocabs) (hV : V.caseLabels.Nodup)
    (R : RpcResponder C) (ctl : C) (input out : Bottle)
    (h : (input.get 0).asVocab = V.MOVV) :
    respond V R ctl input out
      = handleConsumerCmdMsg V R ctl input out R.iCartesianControl.movv := by
  have n0 : V.MOVV ≠ V.STAT :=
    caseLabels_getD_ne V hV 5 0 (by omega) (by omega) (by omega)
  have n1 : V.MOVV ≠ V.INV :=
    caseLabels_getD_ne V hV 5 1 (by omega) (by omega) (by omega)
  have n2 : V.MOVV ≠ V.MOVJ :=
    caseLabels_getD_ne V hV 5 2 (by omega) (by omega) (by omega)
  have n3 : V.MOVV ≠ V.RELJ :=
    caseLabels_getD_ne V hV 5 3 (by omega) (by omega) (by omega)
  have n4 : V.MOVV ≠ V.MOVL :=
    caseLabels_getD_ne V hV 5 4 (by omega) (by omega) (by omega)
  simp only [respond, h, n0, n1, n2, n3, n4, if_false, if_true]

theorem respond_at_GCMP {C : Type} (V : CartesianVocabs) (hV : V.caseLabels.Nodup)
    (R : RpcResponder C) (ctl : C) (input out : Bottle)
    (h : (input.get 0).asVocab = V.GCMP) :
    respond V R ctl input out
      = handleRunnableCmdMsg V R ctl input out R.iCartesianControl.gcmp := by
  have n0 : V.GCMP ≠ V.STAT :=
    caseLabels_getD_ne V hV 6 0 (by omega) (by omega) (by omega)
  have n1 : V.GCMP ≠ V.INV :=
    caseLabels_getD_ne V hV 6 1 (by omega) (by omega) (by omega)
  have n2 : V.GCMP ≠ V.MOVJ :=
    caseLabels_getD_ne V hV 6 2 (by omega) (by omega) (by omega)
  have n3 : V.GCMP ≠ V.RELJ :=
    caseLabels_getD_ne V hV 6 3 (by omega) (by omega) (by omega)
  have n4 : V.GCMP ≠ V.MOVL :=
    caseLabels_getD_ne V hV 6 4 (by omega) (by omega) (by omega)
  have n5 : V.GCMP ≠ V.MOVV :=
    caseLabels_getD_ne V hV 6 5 (by omega) (by omega) (by omega)
  simp only [respond, h, n0, n1, n2, n3, n4, n5, if_false, if_true]

theorem respond_at_FORC {C : Type} (V : CartesianVocabs) (hV : V.caseLabels.Nodup)
    (R : RpcResponder C) (ctl : C) (input out : Bottle)
    (h : (input.get 0).asVocab = V.FORC) :
    respond V R ctl input out
      = handleConsumerCmdMsg V R ctl input out R.iCartesianControl.forc := by
  have n0 : V.FORC ≠ V.STAT :=
    caseLabels_getD_ne V hV 7 0 (by omega) (by omega) (by omega)
  have n1 : V.FORC ≠ V.INV :=
    caseLabels_getD_ne V hV 7 1 (by omega) (by omega) (by omega)
  have n2 : V.FORC ≠ V.MOVJ :=
    caseLabels_getD_ne V hV 7 2 (by omega) (by omega) (by omega)
  have n3 : V.FORC ≠ V.RELJ :=
    caseLabels_getD_ne V hV 7 3 (by omega) (by omega) (by omega)
  have n4 : V.FORC ≠ V.MOVL :=
    caseLabels_getD_ne V hV 7 4 (by omega) (by omega) (by omega)
  have n5 : V.FORC ≠ V.MOVV :=
    caseLabels_getD_ne V hV 7 5 (by omega) (by omega) (by omega)
  have n6 : V.FORC ≠ V.GCMP :=
    caseLabels_getD_ne V hV 7 6 (by omega) (by omega) (by omega)
  simp only [respond, h, n0, n1, n2, n3, n4, n5, n6, if_false, if_true]

theorem respond_at_STOP {C : Type} (V : CartesianVocabs) (hV : V.caseLabels.Nodup)
    (R : RpcResponder C) (ctl : C) (input out : Bottle)
    (h : (input.get 0).asVocab = V.STOP) :
    respond V R ctl input out
      = handleRunnableCmdMsg V R ctl input out R.iCartesianControl.stopControl := by
  have n0 : V.STOP ≠ V.STAT :=
    caseLabels_getD_ne V hV 8 0 (by omega) (by omega) (by omega)
  have n1 : V.STOP ≠ V.INV :=
    caseLabels_getD_ne V hV 8 1 (by omega) (by omega) (by omega)
  have n2 : V.STOP ≠ V.MOVJ :=
    caseLabels_getD_ne V hV 8 2 (by omega) (by omega) (by omega)
  have n3 : V.STOP ≠ V.RELJ :=
    caseLabels_getD_ne V hV 8 3 (by omega) (by omega) (by omega)
  have n4 : V.STOP ≠ V.MOVL :=
    caseLabels_getD_ne V hV 8 4 (by omega) (by omega) (by omega)
  have n5 : V.STOP ≠ V.MOVV :=
    caseLabels_getD_ne V hV 8 5 (by omega) (by omega) (by omega)
  have n6 : V.STOP ≠ V.GCMP :=
    caseLabels_getD_ne V hV 8 6 (by omega) (by omega) (by omega)
  have n7 : V.STOP ≠ V.FORC :=
    caseLabels_getD_ne V hV 8 7 (by omega) (by omega) (by omega)
  simp only [respond, h, n0, n1, n2, n3, n4, n5, n6, n7, if_false, if_true]

theorem respond_at_WAIT {C : Type} (V : CartesianVocabs) (hV : V.caseLabels.Nodup)
    (R : RpcResponder C) (ctl : C) (input out : Bottle)
    (h : (input.get 0).asVocab = V.WAIT) :
    respond V R ctl input out
      = handleWaitMsg V R ctl input out := by
  have n0 : V.WAIT ≠ V.STAT :=
    caseLabels_getD_ne V hV 9 0 (by omega) (by omega) (by omega)
  have n1 : V.WAIT ≠ V.INV :=
    caseLabels_getD_ne V hV 9 1 (by omega) (by omega) (by omega)
  have n2 : V.WAIT ≠ V.MOVJ :=
    caseLabels_getD_ne V hV 9 2 (by omega) (by omega) (by omega)
  have n3 : V.WAIT ≠ V.RELJ :=
    caseLabels_getD_ne V hV 9 3 (by omega) (by omega) (by omega)
  have n4 : V.WAIT ≠ V.MOVL :=
    caseLabels_getD_ne V hV 9 4 (by omega) (by omega) (by omega)
  have n5 : V.WAIT ≠ V.MOVV :=
    caseLabels_getD_ne V hV 9 5 (by omega) (by omega) (by omega)
  have n6 : V.WAIT ≠ V.GCMP :=
    caseLabels_getD_ne V hV 9 6 (by omega) (by omega) (by omega)
  have n7 : V.WAIT ≠ V.FORC :=
    caseLabels_getD_ne V hV 9 7 (by omega) (by omega) (by omega)
  have n8 : V.WAIT ≠ V.STOP :=
    caseLabels_getD_ne V hV 9 8 (by omega) (by omega) (by omega)
  simp only [respond, h, n0, n1, n2, n3, n4, n5, n6, n7, n8, if_false, if_true]

theorem respond_at_TOOL {C : Type} (V : CartesianVocabs) (hV : V.caseLabels.Nodup)
    (R : RpcResponder C) (ctl : C) (input out : Bottle)
    (h : (input.get 0).asVocab = V.TOOL) :
    respond V R ctl input out
      = handleConsumerCmdMsg V R ctl input out R.iCartesianControl.tool := by
  have n0 : V.TOOL ≠ V.STAT :=
    caseLabels_getD_ne V hV 10 0 (by omega) (by omega) (by omega)
  have n1 : V.TOOL ≠ V.INV :=
    caseLabels_getD_ne V hV 10 1 (by omega) (by omega) (by omega)
  have n2 : V.TOOL ≠ V.MOVJ :=
    caseLabels_getD_ne V hV 10 2 (by omega) (by omega) (by omega)
  have n3 : V.TOOL ≠ V.RELJ :=
    caseLabels_getD_ne V hV 10 3 (by omega) (by omega) (by omega)
  have n4 : V.TOOL ≠ V.MOVL :=
    caseLabels_getD_ne V hV 10 4 (by omega) (by omega) (by omega)
  have n5 : V.TOOL ≠ V.MOVV :=
    caseLabels_getD_ne V hV 10 5 (by omega) (by omega) (by omega)
  have n6 : V.TOOL ≠ V.GCMP :=
    caseLabels_getD_ne V hV 10 6 (by omega) (by omega) (by omega)
  have n7 : V.TOOL ≠ V.FORC :=
    caseLabels_getD_ne V hV 10 7 (by omega) (by omega) (by omega)
  have n8 : V.TOOL ≠ V.STOP :=
    caseLabels_getD_ne V hV 10 8 (by omega) (by omega) (by omega)
  have n9 : V.TOOL ≠ V.WAIT :=
    caseLabels_getD_ne V hV 10 9 (by omega) (by omega) (by omega)
  simp only [respond, h, n0, n1, n2, n3, n4, n5, n6, n7, n8, n9, if_false, if_true]

theorem respond_at_ACT {C : Type} (V : CartesianVocabs) (hV : V.caseLabels.Nodup)
    (R : RpcResponder C) (ctl : C) (input out : Bottle)
    (h : (input.get 0).asVocab = V.ACT) :
    respond V R ctl input out
      = handleActMsg V R ctl input out := by
  have n0 : V.ACT ≠ V.STAT :=
    caseLabels_getD_ne V hV 11 0 (by omega) (by omega) (by omega)
  have n1 : V.ACT ≠ V.INV :=
    caseLabels_getD_ne V hV 11 1 (by omega) (by omega) (by omega)
  have n2 : V.ACT ≠ V.MOVJ :=
    caseLabels_getD_ne V hV 11 2 (by omega) (by omega) (by omega)
  have n3 : V.ACT ≠ V.RELJ :=
    caseLabels_getD_ne V hV 11 3 (by omega) (by omega) (by omega)
  have n4 : V.ACT ≠ V.MOVL :=
    caseLabels_getD_ne V hV 11 4 (by omega) (by omega) (by omega)
  have n5 : V.ACT ≠ V.MOVV :=
    caseLabels_getD_ne V hV 11 5 (by omega) (by omega) (by omega)
  have n6 : V.ACT ≠ V.GCMP :=
    caseLabels_getD_ne V hV 11 6 (by omega) (by omega) (by omega)
  have n7 : V.ACT ≠ V.FORC :=
    caseLabels_getD_ne V hV 11 7 (by omega) (by omega) (by omega)
  have n8 : V.ACT ≠ V.STOP :=
    caseLabels_getD_ne V hV 11 8 (by omega) (by omega) (by omega)
  have n9 : V.ACT ≠ V.WAIT :=
    caseLabels_getD_ne V hV 11 9 (by omega) (by omega) (by omega)
  have n10 : V.ACT ≠ V.TOOL :=
    caseLabels_getD_ne V hV 11 10 (by omega) (by omega) (by omega)
  simp only [respond, h, n0, n1, n2, n3, n4, n5, n6, n7, n8, n9, n10, if_false, if_true]

theorem respond_at_SET {C : Type} (V : CartesianVocabs) (hV : V.caseLabels.Nodup)
    (R : RpcResponder C) (ctl : C) (input out : Bottle)
    (h : (input.get 0).asVocab = V.SET) :
    respond V R ctl input out
      = if isGroupParam V input then handleParameterSetterGroup V R ctl input out
        else handleParameterSetter V R ctl input out := by
  have n0 : V.SET ≠ V.STAT :=
    caseLabels_getD_ne V hV 12 0 (by omega) (by omega) (by omega)
  have n1 : V.SET ≠ V.INV :=
    caseLabels_getD_ne V hV 12 1 (by omega) (by omega) (by omega)
  have n2 : V.SET ≠ V.MOVJ :=
    caseLabels_getD_ne V hV 12 2 (by omega) (by omega) (by omega)
  have n3 : V.SET ≠ V.RELJ :=
    caseLabels_getD_ne V hV 12 3 (by omega) (by omega) (by omega)
  have n4 : V.SET ≠ V.MOVL :=
    caseLabels_getD_ne V hV 12 4 (by omega) (by omega) (by omega)
  have n5 : V.SET ≠ V.MOVV :=
    caseLabels_getD_ne V hV 12 5 (by omega) (by omega) (by omega)
  have n6 : V.SET ≠ V.GCMP :=
    caseLabels_getD_ne V hV 12 6 (by omega) (by omega) (by omega)
  have n7 : V.SET ≠ V.FORC :=
    caseLabels_getD_ne V hV 12 7 (by omega) (by omega) (by omega)
  have n8 : V.SET ≠ V.STOP :=
    caseLabels_getD_ne V hV 12 8 (by omega) (by omega) (by omega)
  have n9 : V.SET ≠ V.WAIT :=
    caseLabels_getD_ne V hV 12 9 (by omega) (by omega) (by omega)
  have n10 : V.SET ≠ V.TOOL :=
    caseLabels_getD_ne V hV 12 10 (by omega) (by omega) (by omega)
  have n11 : V.SET ≠ V.ACT :=
    caseLabels_getD_ne V hV 12 11 (by omega) (by omega) (by omega)
  simp only [respond, h, n0, n1, n2, n3, n4, n5, n6, n7, n8, n9, n10, n11, if_false, if_true]

theorem respond_at_GET {C : Type} (V : CartesianVocabs) (hV : V.caseLabels.Nodup)
    (R : RpcResponder C) (ctl : C) (input out : Bottle)
    (h : (input.get 0).asVocab = V.GET) :
    respond V R ctl input out
      = if isGroupParam V input then handleParameterGetterGroup V R ctl input out
        else handleParameterGetter V R ctl input out := by
  have n0 : V.GET ≠ V.STAT :=
    caseLabels_getD_ne V hV 13 0 (by omega) (by omega) (by omega)
  have n1 : V.GET ≠ V.INV :=
    caseLabels_getD_ne V hV 13 1 (by omega) (by omega) (by omega)
  have n2 : V.GET ≠ V.MOVJ :=
    caseLabels_getD_ne V hV 13 2 (by omega) (by omega) (by omega)
  have n3 : V.GET ≠ V.RELJ :=
    caseLabels_getD_ne V hV 13 3 (by omega) (by omega) (by omega)
  have n4 : V.GET ≠ V.MOVL :=
    caseLabels_getD_ne V hV 13 4 (by omega) (by omega) (by omega)
  have n5 : V.GET ≠ V.MOVV :=
    caseLabels_getD_ne V hV 13 5 (by omega) (by omega) (by omega)
  have n6 : V.GET ≠ V.GCMP :=
    caseLabels_getD_ne V hV 13 6 (by omega) (by omega) (by omega)
  have n7 : V.GET ≠ V.FORC :=
    caseLabels_getD_ne V hV 13 7 (by omega) (by omega) (by omega)
  have n8 : V.GET ≠ V.STOP :=
    caseLabels_getD_ne V hV 13 8 (by omega) (by omega) (by omega)
  have n9 : V.GET ≠ V.WAIT :=
    caseLabels_getD_ne V hV 13 9 (by omega) (by omega) (by omega)
  have n10 : V.GET ≠ V.TOOL :=
    caseLabels_getD_ne V hV 13 10 (by omega) (by omega) (by omega)
  have n11 : V.GET ≠ V.ACT :=
    caseLabels_getD_ne V hV 13 11 (by omega) (by omega) (by omega)
  have n12 : V.GET ≠ V.SET :=
    caseLabels_getD_ne V hV 13 12 (by omega) (by omega) (by omega)
  simp only [respond, h, n0, n1, n2, n3, n4, n5, n6, n7, n8, n9, n10, n11, n12, if_false, if_true]

theorem respond_at_default {C : Type} (V : CartesianVocabs)
    (R : RpcResponder C) (ctl : C) (input out : Bottle)
    (h : (input.get 0).asVocab ∉ V.caseLabels) :
    respond V R ctl input out
      = ((R.deviceRespond input out).1, (R.deviceRespond input out).2, ctl) := by
  simp only [CartesianVocabs.caseLabels, List.mem_cons, List.mem_singleton, List.not_mem_nil,
    not_or, or_false] at h
  obtain ⟨h0, h1, h2, h3, h4, h5, h6, h7, h8, h9, h10, h11, h12, h13⟩ := h
  simp only [respond, h0, h1, h2, h3, h4, h5, h6, h7, h8, h9, h10, h11, h12, h13, if_false]

/-- C10: `respond` routes by the vocab of the first element of the request: `stat` to
`handleStatMsg`; `inv` to the function handler with `inv`; `movj`, `relj`, `movl`, `movv`,
`forc`, `tool` to the consumer handler with the method of that name; `gcmp` and `stop` to the
runnable handler with `gcmp` and `stopControl`; `wait` and `act` to their handlers; `set` and
`get` to the group handler exactly when the request has more than one element and element 1
is `VOCAB_CC_CONFIG_PARAMS`, otherwise to the single-parameter handler; any other vocab to
`DeviceResponder::respond`. -/
theorem respond_routes {C : Type} (V : CartesianVocabs) (hV : V.caseLabels.Nodup)
    (R : RpcResponder C) (ctl : C) (input out : Bottle) :
    ((input.get 0).asVocab = V.STAT →
      respond V R ctl input out = handleStatMsg V R ctl input out) ∧
    ((input.get 0).asVocab = V.INV →
      respond V R ctl input out
        = handleFunctionCmdMsg V R ctl input out R.iCartesianControl.inv) ∧
    ((input.get 0).asVocab = V.MOVJ →
      respond V R ctl input out
        = handleConsumerCmdMsg V R ctl input out R.iCartesianControl.movj) ∧
    ((input.get 0).asVocab = V.RELJ →
      respond V R ctl input out
        = handleConsumerCmdMsg V R ctl input out R.iCartesianControl.relj) ∧
    ((input.get 0).asVocab = V.MOVL →
      respond V R ctl input out
        = handleConsumerCmdMsg V R ctl input out R.iCartesianControl.movl) ∧
    ((input.get 0).asVocab = V.MOVV →
      respond V R ctl input out
        = handleConsumerCmdMsg V R ctl input out R.iCartesianControl.movv) ∧
    ((input.get 0).asVocab = V.FORC →
      respond V R ctl input out
        = handleConsumerCmdMsg V R ctl input out R.iCartesianControl.forc) ∧
    ((input.get 0).asVocab = V.TOOL →
      respond V R ctl input out
        = handleConsumerCmdMsg V R ctl input out R.iCartesianControl.tool) ∧
    ((input.get 0).asVocab = V.GCMP →
      respond V R ctl input out
        = handleRunnableCmdMsg V R ctl input out R.iCartesianControl.gcmp) ∧
    ((input.get 0).asVocab = V.STOP →
      respond V R ctl input out
        = handleRunnableCmdMsg V R ctl input out R.iCartesianControl.stopControl) ∧
    ((input.get 0).asVocab = V.WAIT →
      respond V R ctl input out = handleWaitMsg V R ctl input out) ∧
    ((input.get 0).asVocab = V.ACT →
      respond V R ctl input out = handleActMsg V R ctl input out) ∧
    ((input.get 0).asVocab = V.SET →
      ((1 < input.length ∧ (input.get 1).asVocab = V.CONFIG_PARAMS) →
        respond V R ctl input out = handleParameterSetterGroup V R ctl input out) ∧
      (¬ (1 < input.length ∧ (input.get 1).asVocab = V.CONFIG_PARAMS) →
        respond V R ctl input out = handleParameterSetter V R ctl input out)) ∧
    ((input.get 0).asVocab = V.GET →
      ((1 < input.length ∧ (input.get 1).asVocab = V.CONFIG_PARAMS) →
        respond V R ctl input out = handleParameterGetterGroup V R ctl input out) ∧
      (¬ (1 < input.length ∧ (input.get 1).asVocab = V.CONFIG_PARAMS) →
        respond V R ctl input out = handleParameterGetter V R ctl input out)) ∧
    ((input.get 0).asVocab ∉ V.caseLabels →
      respond V R ctl input out
        = ((R.deviceRespond input out).1, (R.deviceRespond input out).2, ctl)) := by
  have hgroup := isGroupParam_iff V input
  have hnot : ¬ (1 < input.length ∧ (input.get 1).asVocab = V.CONFIG_PARAMS) →
      isGroupParam V input = false := by
    intro hg
    cases hb : isGroupParam V input with
    | false => rfl
    | true => exact absurd (hgroup.mp hb) hg
  refine ⟨respond_at_STAT V hV R ctl input out, respond_at_INV V hV R ctl input out,
    respond_at_MOVJ V hV R ctl input out, respond_at_RELJ V hV R ctl input out,
    respond_at_MOVL V hV R ctl input out, respond_at_MOVV V hV R ctl input out,
    respond_at_FORC V hV R ctl input out, respond_at_TOOL V hV R ctl input out,
    respond_at_GCMP V hV R ctl input out, respond_at_STOP V hV R ctl input out,
    respond_at_WAIT V hV R ctl input out, respond_at_ACT V hV R ctl input out,
    ?_, ?_, respond_at_default V R ctl input out⟩
  · intro h
    rw [respond_at_SET V hV R ctl input out h]
    constructor
    · intro hg
      rw [hgroup.mpr hg, if_pos rfl]
    · intro hg
      rw [hnot hg]
      rfl
  · intro h
    rw [respond_at_GET V hV R ctl input out h]
    constructor
    · intro hg
      rw [hgroup.mpr hg, if_pos rfl]
    · intro hg
      rw [hnot hg]
      rfl

theorem demoVocabs_nodup : demoVocabs.caseLabels.Nodup := by
  decide

/-- The request `[stop]` goes to the runnable handler with `stopControl`. -/
theorem respond_routes_witness :
    demoVocabs.caseLabels.Nodup ∧
    respond demoVocabs demoResponder [] [Value.string "stop"] []
      = handleRunnableCmdMsg demoVocabs demoResponder [] [Value.string "stop"] []
          demoResponder.iCartesianControl.stopControl :=
  ⟨demoVocabs_nodup,
    (respond_routes demoVocabs demoVocabs_nodup demoResponder [] [Value.string "stop"]
      []).2.2.2.2.2.2.2.2.2.1 rfl⟩

/-! ## Evaluations on the demonstration inputs -/

/-- A negative solver code: `invKin` returns false and leaves `q`. -/
theorem demo_invKin_negative :
    invKin demoCollaborators demoChain [-1] [10, 20] [7] reference_frame.BASE_FRAME
      = (false, [7]) := by
  have hn : demoChain.getNrOfJoints = 2 := by decide
  simp only [invKin, invKinTarget, qGuessInRad, hn]
  norm_num [demoCollaborators, vecAt, List.range, List.range.loop, zeros]

/-- An unsupported frame: `invKin` returns false and leaves `q`. -/
theorem demo_invKin_unsupported :
    invKin demoCollaborators demoChain [3] [10, 20] [7] (reference_frame.other 5)
      = (false, [7]) := by
  simp [invKin, invKinTarget]

/-- The links loop on the demonstration configuration adds the two joints. -/
theorem demo_addLinks :
    addLinks demoDegToRad demoConfigST 2 0 [⟨JointType.None, 1, frameOfMatrix eye4, none⟩]
      = (true, [⟨JointType.None, 1, frameOfMatrix eye4, none⟩,
          ⟨JointType.RotZ, 1, SegmentFrame.vec 0 0 1, none⟩,
          ⟨JointType.RotY, 1, SegmentFrame.vec 1 0 0, none⟩]) := by
  simp [addLinks, demoConfigST, demoConfig, xyzLinkSegment]

/-- The limits read from the demonstration configuration, in radians. -/
theorem demo_limits :
    retrieveJointLimits demoDegToRad demoConfigST (zeros 2) (zeros 2)
      = (true, [demoDegToRad (-90), demoDegToRad 30], [demoDegToRad 90, demoDegToRad 30]) := by
  simp only [retrieveJointLimits, demoConfigST, demoConfig, zeros]
  norm_num [retrieveJointLimitsLoop, vecAt, demoDegToRad, List.replicate, List.set]

/-- With a builder that finds a solver, `open` succeeds on the demonstration configuration:
its failure in the other case comes from the builder alone. -/
theorem demo_open_st_reaches_create :
    (kdlSolverOpen demoDegToRad (fun _ _ => some ()) (KdlSolver.fresh Unit) demoConfigST).1
      = true := by
  have hlinks := demo_addLinks
  have hlim := demo_limits
  unfold kdlSolverOpen
  have h1 : demoConfigST.numLinks = some 2 := rfl
  have h2 : demoConfigST.H0 = none := rfl
  have h3 : demoConfigST.HN = none := rfl
  have h4 : demoConfigST.ik = some "st" := rfl
  have h5 : demoConfigST.invKinStrategy = none := rfl
  simp only [h1, h2, h3, h4, h5, KdlSolver.fresh, getMatrixFromProperties, Option.map_none',
    Option.getD_none, Option.getD_some, List.nil_append, show Int.toNat 2 = 2 from rfl, hlinks,
    String.reduceEq, if_false, if_true]
  have hjoints : Chain.getNrOfJoints
      ([⟨JointType.None, 1, frameOfMatrix eye4, none⟩,
        ⟨JointType.RotZ, 1, SegmentFrame.vec 0 0 1, none⟩,
        ⟨JointType.RotY, 1, SegmentFrame.vec 1 0 0, none⟩]
        ++ [⟨JointType.None, 1, frameOfMatrix eye4, none⟩]) = 2 := by decide
  rw [hjoints, hlim]
  simp [strategyFactory, DEFAULT_STRATEGY]

/-! ## The joint checks with velocities -/

theorem checkJointLimitsVelLoop_eq_false (self : BasicCartesianControl) (q qdot : List ℚ)
    (n start : Nat) :
    checkJointLimitsVelLoop self q qdot n start = false ↔
      ∃ j, start ≤ j ∧ j < start + n ∧
        (vecAt q j < vecAt self.qMin j + epsilon ∨ vecAt q j > vecAt self.qMax j - epsilon) ∧
        sgn (vecAt q j - (vecAt self.qMax j + vecAt self.qMin j) / 2) = sgn (vecAt qdot j) := by
  induction n generalizing start with
  | zero =>
    simp only [checkJointLimitsVelLoop, Bool.true_eq_false, false_iff, not_exists]
    intro j hj
    omega
  | succ n ih =>
    have hstep : (∃ j, start + 1 ≤ j ∧ j < start + 1 + n ∧
          (vecAt q j < vecAt self.qMin j + epsilon ∨ vecAt q j > vecAt self.qMax j - epsilon) ∧
          sgn (vecAt q j - (vecAt self.qMax j + vecAt self.qMin j) / 2) = sgn (vecAt qdot j)) →
        ∃ j, start ≤ j ∧ j < start + (n + 1) ∧
          (vecAt q j < vecAt self.qMin j + epsilon ∨ vecAt q j > vecAt self.qMax j - epsilon) ∧
          sgn (vecAt q j - (vecAt self.qMax j + vecAt self.qMin j) / 2) = sgn (vecAt qdot j) := by
      rintro ⟨j, h1, h2, h3⟩
      exact ⟨j, by omega, by omega, h3⟩
    have hback : ∀ (hnot : ¬ ((vecAt q start < vecAt self.qMin start + epsilon ∨
            vecAt q start > vecAt self.qMax start - epsilon) ∧
          sgn (vecAt q start - (vecAt self.qMax start + vecAt self.qMin start) / 2)
            = sgn (vecAt qdot start))),
        (∃ j, start ≤ j ∧ j < start + (n + 1) ∧
          (vecAt q j < vecAt self.qMin j + epsilon ∨ vecAt q j > vecAt self.qMax j - epsilon) ∧
          sgn (vecAt q j - (vecAt self.qMax j + vecAt self.qMin j) / 2) = sgn (vecAt qdot j)) →
        ∃ j, start + 1 ≤ j ∧ j < start + 1 + n ∧
          (vecAt q j < vecAt self.qMin j + epsilon ∨ vecAt q j > vecAt self.qMax j - epsilon) ∧
          sgn (vecAt q j - (vecAt self.qMax j + vecAt self.qMin j) / 2) = sgn (vecAt qdot j) := by
      rintro hnot ⟨j, h1, h2, h3⟩
      rcases Nat.eq_or_lt_of_le h1 with heq | hlt
      · subst heq
        exact absurd h3 hnot
      · exact ⟨j, hlt, by omega, h3⟩
    simp only [checkJointLimitsVelLoop]
    by_cases hnear : vecAt q start < vecAt self.qMin start + epsilon ∨
        vecAt q start > vecAt self.qMax start - epsilon
    · rw [if_pos hnear]
      by_cases hsgn : sgn (vecAt q start - (vecAt self.qMax start + vecAt self.qMin start) / 2)
          = sgn (vecAt qdot start)
      · rw [if_pos hsgn]
        simp only [true_iff]
        exact ⟨start, le_refl _, by omega, hnear, hsgn⟩
      · rw [if_neg hsgn, ih (start + 1)]
        exact ⟨hstep, hback (fun h => hsgn h.2)⟩
    · rw [if_neg hnear, ih (start + 1)]
      exact ⟨hstep, hback (fun h => hnear h.1)⟩

/-- C17: `checkJointLimits(q, qdot)` returns false exactly when some solver joint `j` is
near or beyond a limit (`q[j] < qMin[j] + epsilon` or `q[j] > qMax[j] - epsilon`) and
`sgn(q[j] - (qMax[j] + qMin[j]) / 2)` equals `sgn(qdot[j])`; hence it returns true when
every joint near or beyond a limit has a velocity whose sign differs from the side of
mid-range the joint is on. -/
theorem checkJointLimitsVel_false_iff (self : BasicCartesianControl) (q qdot : List ℚ)
    (hq : self.numSolverJoints ≤ q.length) (hqdot : self.numSolverJoints ≤ qdot.length)
    (hmin : self.numSolverJoints ≤ self.qMin.length)
    (hmax : self.numSolverJoints ≤ self.qMax.length) :
    (checkJointLimitsVel self q qdot = false ↔
      ∃ j, j < self.numSolverJoints ∧
        (vecAt q j < vecAt self.qMin j + epsilon ∨ vecAt q j > vecAt self.qMax j - epsilon) ∧
        sgn (vecAt q j - (vecAt self.qMax j + vecAt self.qMin j) / 2) = sgn (vecAt qdot j)) ∧
    ((∀ j, j < self.numSolverJoints →
        (vecAt q j < vecAt self.qMin j + epsilon ∨ vecAt q j > vecAt self.qMax j - epsilon) →
        sgn (vecAt q j - (vecAt self.qMax j + vecAt self.qMin j) / 2) ≠ sgn (vecAt qdot j)) →
      checkJointLimitsVel self q qdot = true) := by
  have key := checkJointLimitsVelLoop_eq_false self q qdot self.numSolverJoints 0
  have hiff : checkJointLimitsVel self q qdot = false ↔
      ∃ j, j < self.numSolverJoints ∧
        (vecAt q j < vecAt self.qMin j + epsilon ∨ vecAt q j > vecAt self.qMax j - epsilon) ∧
        sgn (vecAt q j - (vecAt self.qMax j + vecAt self.qMin j) / 2) = sgn (vecAt qdot j) := by
    unfold checkJointLimitsVel
    rw [key]
    constructor
    · rintro ⟨j, _, h2, h3⟩
      exact ⟨j, by omega, h3⟩
    · rintro ⟨j, h2, h3⟩
      exact ⟨j, Nat.zero_le _, by omega, h3⟩
  refine ⟨hiff, ?_⟩
  intro hall
  cases hres : checkJointLimitsVel self q qdot with
  | true => rfl
  | false =>
    obtain ⟨j, hj, hnear, hsgn⟩ := hiff.mp hres
    exact absurd hsgn (hall j hj hnear)

/-- The first joint sits on its upper limit `90` and is commanded back toward mid-range;
the check accepts. -/
theorem checkJointLimitsVel_false_iff_witness :
    checkJointLimitsVel demoControl [90, 0] [-1, 0] = true :=
  (checkJointLimitsVel_false_iff demoControl [90, 0] [-1, 0]
    (by decide) (by decide) (by decide) (by decide)).2 (by
      intro j hj hnear
      have hj2 : j < 2 := hj
      interval_cases j
      · norm_num [vecAt, demoControl, sgn]
      · exfalso
        revert hnear
        norm_num [vecAt, demoControl, epsilon])

/-- The same joint commanded further past its limit: the check refuses. -/
theorem demo_checkJointLimitsVel_refuses :
    checkJointLimitsVel demoControl [90, 0] [1, 0] = false := by
  norm_num [checkJointLimitsVel, checkJointLimitsVelLoop, vecAt, demoControl, epsilon, sgn]

/-! ## The joint velocity check -/

theorem checkJointVelocitiesLoop_eq_true (self : BasicCartesianControl) (qdot : List ℚ)
    (n start : Nat) :
    checkJointVelocitiesLoop self qdot n start = true ↔
      ∀ j, start ≤ j → j < start + n →
        vecAt self.qdotMin j ≤ vecAt qdot j ∧ vecAt qdot j ≤ vecAt self.qdotMax j := by
  induction n generalizing start with
  | zero =>
    simp only [checkJointVelocitiesLoop, true_iff]
    intro j h1 h2
    omega
  | succ n ih =>
    simp only [checkJointVelocitiesLoop]
    by_cases hout : vecAt qdot start < vecAt self.qdotMin start ∨
        vecAt qdot start > vecAt self.qdotMax start
    · rw [if_pos hout]
      simp only [Bool.false_eq_true, false_iff, not_forall]
      refine ⟨start, le_refl _, by omega, ?_⟩
      intro hc
      rcases hout with h | h
      · exact absurd hc.1 (not_le.mpr h)
      · exact absurd hc.2 (not_le.mpr h)
    · rw [if_neg hout, ih (start + 1)]
      have h1 : vecAt self.qdotMin start ≤ vecAt qdot start := by
        by_contra hc
        exact hout (Or.inl (not_le.mp hc))
      have h2 : vecAt qdot start ≤ vecAt self.qdotMax start := by
        by_contra hc
        exact hout (Or.inr (not_le.mp hc))
      constructor
      · intro hall j hj1 hj2
        rcases Nat.eq_or_lt_of_le hj1 with heq | hlt
        · subst heq
          exact ⟨h1, h2⟩
        · exact hall j hlt (by omega)
      · intro hall j hj1 hj2
        exact hall j (by omega) (by omega)

/-- C18: `checkJointVelocities(qdot)` returns true exactly when
`qdotMin[j] <= qdot[j] <= qdotMax[j]` for every solver joint; the bounds are inclusive, so
it returns true when every velocity is exactly at `qdotMin[j]` or at `qdotMax[j]` (with
`qdotMin[j] <= qdotMax[j]`). -/
theorem checkJointVelocities_iff (self : BasicCartesianControl) (qdot : List ℚ)
    (hqdot : self.numSolverJoints ≤ qdot.length)
    (hmin : self.numSolverJoints ≤ self.qdotMin.length)
    (hmax : self.numSolverJoints ≤ self.qdotMax.length) :
    (checkJointVelocities self qdot = true ↔
      ∀ j, j < self.numSolverJoints →
        vecAt self.qdotMin j ≤ vecAt qdot j ∧ vecAt qdot j ≤ vecAt self.qdotMax j) ∧
    ((∀ j, j < self.numSolverJoints → vecAt self.qdotMin j ≤ vecAt self.qdotMax j ∧
        (vecAt qdot j = vecAt self.qdotMin j ∨ vecAt qdot j = vecAt self.qdotMax j)) →
      checkJointVelocities self qdot = true) := by
  have key := checkJointVelocitiesLoop_eq_true self qdot self.numSolverJoints 0
  have hiff : checkJointVelocities self qdot = true ↔
      ∀ j, j < self.numSolverJoints →
        vecAt self.qdotMin j ≤ vecAt qdot j ∧ vecAt qdot j ≤ vecAt self.qdotMax j := by
    unfold checkJointVelocities
    rw [key]
    constructor
    · intro h j hj
      exact h j (Nat.zero_le _) (by omega)
    · intro h j _ hj
      exact h j (by omega)
  refine ⟨hiff, ?_⟩
  intro hall
  apply hiff.mpr
  intro j hj
  obtain ⟨hle, hb⟩ := hall j hj
  rcases hb with hb | hb
  · rw [hb]
    exact ⟨le_refl _, hle⟩
  · rw [hb]
    exact ⟨hle, le_refl _⟩

/-- One velocity at its lower bound `-10` and one at its upper bound `10`: accepted. -/
theorem checkJointVelocities_iff_witness :
    checkJointVelocities demoControl [-10, 10] = true :=
  (checkJointVelocities_iff demoControl [-10, 10] (by decide) (by decide) (by decide)).2 (by
    intro j hj
    have hj2 : j < 2 := hj
    interval_cases j <;> norm_num [vecAt, demoControl])

/-! ## The command handlers of the RPC responder -/

theorem readCoordinates_length (input : Bottle) :
    (readCoordinates input).length = input.length - 1 := by
  simp [readCoordinates]

theorem readCoordinates_at (input : Bottle) (j : Nat) (hj : j + 1 < input.length) :
    vecAt (readCoordinates input) j = (input.get (j + 1)).asFloat64 := by
  simp [vecAt, readCoordinates, Bottle.get, List.getD_eq_getElem?_getD, List.getElem?_map,
    List.getElem?_drop, List.getElem?_eq_getElem hj]

theorem reply_vocab_eq (out : Bottle) (a b : Int) :
    out ++ [Value.vocab a] = out ++ [Value.vocab b] ↔ a = b := by
  simp

/-- C11: in `handleConsumerCmdMsg` (the handler of `movj`, `relj`, `movl`, `movv`, `forc`
and `tool`), a request of size at most 1 gets the single reply `VOCAB_CC_FAILED`, false is
returned and the controller is left as it was, whatever the method; otherwise the vector
read is elements `1 .. n-1` in order, a failing transform gives the same failure without
calling the method, a passing transform calls the method once on the transformed vector,
and the reply is the single `VOCAB_CC_OK`, with true returned, exactly when the transform
and the method both succeed, and the single `VOCAB_CC_FAILED` with false otherwise. -/
theorem handleConsumerCmdMsg_spec {C : Type} (V : CartesianVocabs) (R : RpcResponder C)
    (ctl : C) (input out : Bottle) (cmd : C → List ℚ → Bool × C) :
    (input.length ≤ 1 →
      handleConsumerCmdMsg V R ctl input out cmd = (false, out ++ [Value.vocab V.FAILED], ctl)) ∧
    (1 < input.length →
      (readCoordinates input).length = input.length - 1 ∧
      (∀ j, j + 1 < input.length →
        vecAt (readCoordinates input) j = (input.get (j + 1)).asFloat64) ∧
      ((R.transformIncomingData (readCoordinates input)).1 = false →
        handleConsumerCmdMsg V R ctl input out cmd
          = (false, out ++ [Value.vocab V.FAILED], ctl)) ∧
      ((R.transformIncomingData (readCoordinates input)).1 = true →
        handleConsumerCmdMsg V R ctl input out cmd
          = ((cmd ctl (R.transformIncomingData (readCoordinates input)).2).1,
              out ++ [Value.vocab
                (if (cmd ctl (R.transformIncomingData (readCoordinates input)).2).1 = true
                  then V.OK else V.FAILED)],
              (cmd ctl (R.transformIncomingData (readCoordinates input)).2).2)) ∧
      ((handleConsumerCmdMsg V R ctl input out cmd).1 = true ↔
        (R.transformIncomingData (readCoordinates input)).1 = true ∧
        (cmd ctl (R.transformIncomingData (readCoordinates input)).2).1 = true) ∧
      (V.OK ≠ V.FAILED →
        ((handleConsumerCmdMsg V R ctl input out cmd).2.1 = out ++ [Value.vocab V.OK] ↔
          (R.transformIncomingData (readCoordinates input)).1 = true ∧
          (cmd ctl (R.transformIncomingData (readCoordinates input)).2).1 = true))) := by
  constructor
  · intro h
    have h2 : ¬ input.length > 1 := by omega
    simp only [handleConsumerCmdMsg, if_neg h2]
  · intro h
    have h2 : input.length > 1 := h
    refine ⟨readCoordinates_length input, readCoordinates_at input, ?_, ?_, ?_, ?_⟩
    · intro ht
      simp only [handleConsumerCmdMsg, if_pos h2, ht, Bool.not_false, if_true]
    · intro ht
      simp only [handleConsumerCmdMsg, if_pos h2, ht, Bool.not_true, Bool.false_eq_true, if_false]
      cases hc : (cmd ctl (R.transformIncomingData (readCoordinates input)).2).1 <;> simp
    · simp only [handleConsumerCmdMsg, if_pos h2]
      cases ht : (R.transformIncomingData (readCoordinates input)).1
      · simp
      · cases hc : (cmd ctl (R.transformIncomingData (readCoordinates input)).2).1 <;> simp [hc]
    · intro hne
      have hne2 : V.FAILED ≠ V.OK := fun h => hne h.symm
      simp only [handleConsumerCmdMsg, if_pos h2]
      cases ht : (R.transformIncomingData (readCoordinates input)).1
      · simp [hne2]
      · cases hc : (cmd ctl (R.transformIncomingData (readCoordinates input)).2).1 <;>
          simp [hc, hne2]

/-- C12: in `handleFunctionCmdMsg` (the handler of `inv`), when the request has at least one
coordinate and the incoming transform and the method both succeed, the reply is exactly the
values the method returned, in order, and true is returned; otherwise the reply is the
single `VOCAB_CC_FAILED` and false is returned. -/
theorem handleFunctionCmdMsg_spec {C : Type} (V : CartesianVocabs) (R : RpcResponder C)
    (ctl : C) (input out : Bottle) (cmd : C → List ℚ → (Bool × List ℚ) × C) :
    ((1 < input.length ∧ (R.transformIncomingData (readCoordinates input)).1 = true ∧
        (cmd ctl (R.transformIncomingData (readCoordinates input)).2).1.1 = true) →
      (handleFunctionCmdMsg V R ctl input out cmd).1 = true ∧
      (handleFunctionCmdMsg V R ctl input out cmd).2.1
        = out ++ (cmd ctl (R.transformIncomingData (readCoordinates input)).2).1.2.map
            Value.float64 ∧
      (handleFunctionCmdMsg V R ctl input out cmd).2.2
        = (cmd ctl (R.transformIncomingData (readCoordinates input)).2).2) ∧
    (¬ (1 < input.length ∧ (R.transformIncomingData (readCoordinates input)).1 = true ∧
        (cmd ctl (R.transformIncomingData (readCoordinates input)).2).1.1 = true) →
      (handleFunctionCmdMsg V R ctl input out cmd).1 = false ∧
      (handleFunctionCmdMsg V R ctl input out cmd).2.1 = out ++ [Value.vocab V.FAILED]) := by
  by_cases h2 : input.length > 1
  · simp only [handleFunctionCmdMsg, if_pos h2]
    cases ht : (R.transformIncomingData (readCoordinates input)).1
    · simp
    · cases hc : (cmd ctl (R.transformIncomingData (readCoordinates input)).2).1.1 <;>
        simp [hc, h2]
  · have h3 : ¬ 1 < input.length := h2
    simp only [handleFunctionCmdMsg, if_neg h2]
    simp [h3]

/-- C13: in `handleStatMsg`, when `stat` and the outgoing transform both succeed the reply
is exactly the state vocab, then the transformed pose coordinates in order, then the
timestamp, that is `x.size() + 2` elements, and true is returned; otherwise the reply is the
single `VOCAB_CC_FAILED` and false is returned. -/
theorem handleStatMsg_spec {C : Type} (V : CartesianVocabs) (R : RpcResponder C)
    (ctl : C) (input out : Bottle) :
    (((R.iCartesianControl.stat ctl).1.1 = true ∧
        (R.transformOutgoingData (R.iCartesianControl.stat ctl).1.2.1).1 = true) →
      (handleStatMsg V R ctl input out).1 = true ∧
      (handleStatMsg V R ctl input out).2.1
        = out ++ ([Value.vocab (R.iCartesianControl.stat ctl).1.2.2.1]
            ++ (R.transformOutgoingData (R.iCartesianControl.stat ctl).1.2.1).2.map Value.float64
            ++ [Value.float64 (R.iCartesianControl.stat ctl).1.2.2.2]) ∧
      (handleStatMsg V R ctl input out).2.1.length
        = out.length
          + ((R.transformOutgoingData (R.iCartesianControl.stat ctl).1.2.1).2.length + 2)) ∧
    (¬ ((R.iCartesianControl.stat ctl).1.1 = true ∧
        (R.transformOutgoingData (R.iCartesianControl.stat ctl).1.2.1).1 = true) →
      (handleStatMsg V R ctl input out).1 = false ∧
      (handleStatMsg V R ctl input out).2.1 = out ++ [Value.vocab V.FAILED]) := by
  simp only [handleStatMsg]
  cases hs : (R.iCartesianControl.stat ctl).1.1
  · simp
  · cases ht : (R.transformOutgoingData (R.iCartesianControl.stat ctl).1.2.1).1
    · simp
    · simp

/-! ## Parameter maps -/

theorem lookup_cons_eq (key k : Int) (v : ℚ) (rest : List (Int × ℚ)) :
    List.lookup key ((k, v) :: rest) = if key = k then some v else List.lookup key rest := by
  by_cases h : key = k
  · simp [List.lookup, h]
  · have hb : (key == k) = false := by simpa using h
    simp [List.lookup, h, hb]

theorem lookup_eq_none_of_lt (key : Int) :
    ∀ (m : List (Int × ℚ)), (∀ e ∈ m, key < e.1) → List.lookup key m = none := by
  intro m
  induction m with
  | nil =>
    intro _
    rfl
  | cons e rest ih =>
    intro h
    obtain ⟨k, v⟩ := e
    have hk : key < k := h (k, v) (List.mem_cons_self _ _)
    rw [lookup_cons_eq, if_neg (ne_of_lt hk)]
    exact ih (fun e he => h e (List.mem_cons_of_mem _ he))

theorem mem_mapEmplace (k : Int) (v : ℚ) (e : Int × ℚ) :
    ∀ (m : ParamMap), e ∈ mapEmplace m k v → e ∈ m ∨ e = (k, v) := by
  intro m
  induction m with
  | nil =>
    intro h
    simp only [mapEmplace, List.mem_singleton] at h
    exact Or.inr h
  | cons e0 rest ih =>
    intro h
    obtain ⟨k0, v0⟩ := e0
    simp only [mapEmplace] at h
    by_cases h1 : k < k0
    · rw [if_pos h1] at h
      rcases List.mem_cons.mp h with h | h
      · exact Or.inr h
      · exact Or.inl h
    · rw [if_neg h1] at h
      by_cases h2 : k = k0
      · rw [if_pos h2] at h
        exact Or.inl h
      · rw [if_neg h2] at h
        rcases List.mem_cons.mp h with h | h
        · exact Or.inl (h ▸ List.mem_cons_self _ _)
        · rcases ih h with h | h
          · exact Or.inl (List.mem_cons_of_mem _ h)
          · exact Or.inr h

theorem keysAscending_mapEmplace (k : Int) (v : ℚ) :
    ∀ (m : ParamMap), KeysAscending m → KeysAscending (mapEmplace m k v) := by
  intro m
  induction m with
  | nil =>
    intro _
    simp [mapEmplace, KeysAscending]
  | cons e0 rest ih =>
    intro h
    obtain ⟨k0, v0⟩ := e0
    have hp := List.pairwise_cons.mp h
    simp only [mapEmplace]
    by_cases h1 : k < k0
    · rw [if_pos h1]
      refine List.pairwise_cons.mpr ⟨?_, h⟩
      intro e he
      rcases List.mem_cons.mp he with he | he
      · rw [he]
        exact h1
      · exact lt_trans h1 (hp.1 e he)
    · rw [if_neg h1]
      by_cases h2 : k = k0
      · rw [if_pos h2]
        exact h
      · rw [if_neg h2]
        refine List.pairwise_cons.mpr ⟨?_, ih hp.2⟩
        intro e he
        rcases mem_mapEmplace k v e rest he with he | he
        · exact hp.1 e he
        · rw [he]
          exact lt_of_le_of_ne (not_lt.mp h1) (fun hc => h2 hc.symm)

theorem lookup_mapEmplace (k : Int) (v : ℚ) (key : Int) :
    ∀ (m : ParamMap), KeysAscending m →
      List.lookup key (mapEmplace m k v)
        = (List.lookup key m).or (if key = k then some v else none) := by
  intro m
  induction m with
  | nil =>
    intro _
    have h0 : mapEmplace [] k v = [(k, v)] := rfl
    rw [h0, lookup_cons_eq]
    simp [List.lookup]
  | cons e0 rest ih =>
    intro h
    obtain ⟨k0, v0⟩ := e0
    have hp := List.pairwise_cons.mp h
    simp only [mapEmplace]
    by_cases h1 : k < k0
    · rw [if_pos h1, lookup_cons_eq]
      by_cases hk : key = k
      · have hnone : List.lookup key ((k0, v0) :: rest) = none := by
          apply lookup_eq_none_of_lt
          intro e he
          rw [hk]
          rcases List.mem_cons.mp he with he | he
          · rw [he]
            exact h1
          · exact lt_trans h1 (hp.1 e he)
        rw [if_pos hk, hnone]
        simp [hk]
      · rw [if_neg hk]
        cases List.lookup key ((k0, v0) :: rest) <;> simp [hk]
    · rw [if_neg h1]
      by_cases h2 : k = k0
      · rw [if_pos h2, lookup_cons_eq]
        by_cases hk : key = k0
        · rw [if_pos hk]
          simp
        · have hk2 : ¬ key = k := fun hc => hk (hc.trans h2)
          rw [if_neg hk]
          cases List.lookup key rest <;> simp [hk2]
      · rw [if_neg h2, lookup_cons_eq, lookup_cons_eq]
        by_cases hk : key = k0
        · rw [if_pos hk, if_pos hk]
          simp
        · rw [if_neg hk, if_neg hk]
          exact ih hp.2

theorem keysAscending_foldl (entries : List (Int × ℚ)) :
    ∀ (m : ParamMap), KeysAscending m →
      KeysAscending (entries.foldl (fun m entry => mapEmplace m entry.1 entry.2) m) := by
  induction entries with
  | nil =>
    intro m h
    exact h
  | cons e rest ih =>
    intro m h
    exact ih _ (keysAscending_mapEmplace e.1 e.2 m h)

theorem lookup_foldl (key : Int) (entries : List (Int × ℚ)) :
    ∀ (m : ParamMap), KeysAscending m →
      List.lookup key (entries.foldl (fun m entry => mapEmplace m entry.1 entry.2) m)
        = (List.lookup key m).or (List.lookup key entries) := by
  induction entries with
  | nil =>
    intro m _
    show List.lookup key m = (List.lookup key m).or none
    rw [Option.or_none]
  | cons e rest ih =>
    intro m h
    obtain ⟨k, v⟩ := e
    rw [List.foldl_cons, ih _ (keysAscending_mapEmplace k v m h), lookup_mapEmplace k v key m h,
      lookup_cons_eq]
    cases List.lookup key m with
    | some x => simp
    | none =>
      by_cases hk : key = k
      · rw [if_pos hk, if_pos hk]
        simp
      · rw [if_neg hk, if_neg hk]
        simp

theorem mapEmplace_last (k : Int) (v : ℚ) :
    ∀ (m : ParamMap), (∀ e ∈ m, e.1 < k) → mapEmplace m k v = m ++ [(k, v)] := by
  intro m
  induction m with
  | nil =>
    intro _
    rfl
  | cons e0 rest ih =>
    intro h
    obtain ⟨k0, v0⟩ := e0
    have h0 : k0 < k := h (k0, v0) (List.mem_cons_self _ _)
    simp only [mapEmplace]
    rw [if_neg (not_lt.mpr (le_of_lt h0)), if_neg (ne_of_gt h0),
      ih (fun e he => h e (List.mem_cons_of_mem _ he))]
    rfl

theorem foldl_mapEmplace_ascending (entries : List (Int × ℚ)) :
    ∀ (m : ParamMap), KeysAscending (m ++ entries) →
      entries.foldl (fun m entry => mapEmplace m entry.1 entry.2) m = m ++ entries := by
  induction entries with
  | nil =>
    intro m _
    simp
  | cons e rest ih =>
    intro m h
    have hp := List.pairwise_append.mp h
    have hlast : mapEmplace m e.1 e.2 = m ++ [e] := by
      rw [mapEmplace_last e.1 e.2 m (fun a ha => hp.2.2 a ha e (List.mem_cons_self _ _))]
    rw [List.foldl_cons, hlast, ih (m ++ [e]) (by simpa using h)]
    simp

theorem buildMap_ascending (entries : List (Int × ℚ)) : KeysAscending (buildMap entries) :=
  keysAscending_foldl entries [] List.Pairwise.nil

theorem buildMap_lookup (entries : List (Int × ℚ)) (key : Int) :
    List.lookup key (buildMap entries) = List.lookup key entries := by
  have h := lookup_foldl key entries [] List.Pairwise.nil
  simpa [buildMap, Option.or] using h

theorem buildMap_of_ascending (entries : List (Int × ℚ)) (h : KeysAscending entries) :
    buildMap entries = entries := by
  have h2 := foldl_mapEmplace_ascending entries [] (by simpa using h)
  simpa [buildMap] using h2

/-! ## The group handlers of the configuration parameters -/

theorem readPair_of_asList (V : CartesianVocabs) (item : Value) (b : Bottle)
    (hb : item.asList = some b) :
    readPair V item
      = ((Bottle.get b 0).asVocab, asValue V (Bottle.get b 0).asVocab (Bottle.get b 1)) := by
  simp only [readPair, hb, Option.getD_some]

theorem collectParams_of_pairs (V : CartesianVocabs) :
    ∀ (items : List Value) (m : ParamMap), (∀ item ∈ items, isPairItem item) →
      collectParams V items m
        = some ((items.map (readPair V)).foldl (fun m entry => mapEmplace m entry.1 entry.2) m) := by
  intro items
  induction items with
  | nil =>
    intro m _
    rfl
  | cons item rest ih =>
    intro m h
    obtain ⟨b, hb, hlen⟩ := h item (List.mem_cons_self _ _)
    have hnot : ¬ b.length ≠ 2 := fun hc => hc hlen
    simp only [collectParams, hb, if_neg hnot, List.map_cons, List.foldl_cons,
      readPair_of_asList V item b hb]
    exact ih _ (fun it hit => h it (List.mem_cons_of_mem _ hit))

theorem collectParams_none (V : CartesianVocabs) :
    ∀ (items : List Value) (m : ParamMap), (∃ item ∈ items, ¬ isPairItem item) →
      collectParams V items m = none := by
  intro items
  induction items with
  | nil =>
    rintro m ⟨item, hmem, _⟩
    simp at hmem
  | cons item rest ih =>
    rintro m ⟨bad, hmem, hbad⟩
    cases hb : item.asList with
    | none => simp only [collectParams, hb]
    | some b =>
      by_cases hlen : b.length ≠ 2
      · simp only [collectParams, hb, if_pos hlen]
      · simp only [collectParams, hb, if_neg hlen]
        have hpair : isPairItem item := ⟨b, hb, not_not.mp hlen⟩
        rcases List.mem_cons.mp hmem with heq | hrest
        · rw [heq] at hbad
          exact absurd hpair hbad
        · exact ih _ ⟨bad, hrest, hbad⟩

/-- C14: in `handleParameterSetterGroup`, a request of size at most 2, or with an element
from index 2 on that is not a list of exactly two items, gets the reply `VOCAB_CC_FAILED`,
false is returned and the controller is left as it was (`setParameters` is not called);
otherwise `setParameters` is called once with the map built from all the pairs (keys
ascending, each key with the value of its first pair), the flag it returns is returned, and
the reply is `VOCAB_CC_OK` exactly when it succeeds and `VOCAB_CC_FAILED` otherwise. -/
theorem handleParameterSetterGroup_spec {C : Type} (V : CartesianVocabs) (R : RpcResponder C)
    (ctl : C) (input out : Bottle) :
    ((input.length ≤ 2 ∨ ∃ item ∈ input.drop 2, ¬ isPairItem item) →
      handleParameterSetterGroup V R ctl input out
        = (false, out ++ [Value.vocab V.FAILED], ctl)) ∧
    ((2 < input.length ∧ ∀ item ∈ input.drop 2, isPairItem item) →
      KeysAscending (buildMap (requestPairs V input)) ∧
      (∀ key, List.lookup key (buildMap (requestPairs V input))
        = List.lookup key (requestPairs V input)) ∧
      handleParameterSetterGroup V R ctl input out
        = ((R.iCartesianControl.setParameters ctl (buildMap (requestPairs V input))).1,
            out ++ [Value.vocab
              (if (R.iCartesianControl.setParameters ctl (buildMap (requestPairs V input))).1
                  = true then V.OK else V.FAILED)],
            (R.iCartesianControl.setParameters ctl (buildMap (requestPairs V input))).2) ∧
      (V.OK ≠ V.FAILED →
        ((handleParameterSetterGroup V R ctl input out).2.1 = out ++ [Value.vocab V.OK] ↔
          (R.iCartesianControl.setParameters ctl (buildMap (requestPairs V input))).1
            = true))) := by
  constructor
  · rintro (hsize | hbad)
    · have h2 : ¬ input.length > 2 := by omega
      simp only [handleParameterSetterGroup, if_neg h2]
    · by_cases h2 : input.length > 2
      · simp only [handleParameterSetterGroup, if_pos h2,
          collectParams_none V (input.drop 2) [] hbad]
      · simp only [handleParameterSetterGroup, if_neg h2]
  · rintro ⟨hsize, hall⟩
    have h2 : input.length > 2 := hsize
    have hcollect : collectParams V (input.drop 2) [] = some (buildMap (requestPairs V input)) :=
      collectParams_of_pairs V (input.drop 2) [] hall
    have heq : handleParameterSetterGroup V R ctl input out
        = ((R.iCartesianControl.setParameters ctl (buildMap (requestPairs V input))).1,
            out ++ [Value.vocab
              (if (R.iCartesianControl.setParameters ctl (buildMap (requestPairs V input))).1
                  = true then V.OK else V.FAILED)],
            (R.iCartesianControl.setParameters ctl (buildMap (requestPairs V input))).2) := by
      simp only [handleParameterSetterGroup, if_pos h2, hcollect]
      cases hc : (R.iCartesianControl.setParameters ctl (buildMap (requestPairs V input))).1 <;>
        simp
    refine ⟨buildMap_ascending _, buildMap_lookup _, heq, ?_⟩
    intro hne
    have hne2 : V.FAILED ≠ V.OK := fun h => hne h.symm
    rw [heq]
    cases hc : (R.iCartesianControl.setParameters ctl (buildMap (requestPairs V input))).1 <;>
      simp [hne2]

theorem addValue_eq_written (V : CartesianVocabs) (b : Bottle) (vocab : Int) (value : ℚ) :
    addValue V b vocab value = b ++ [writtenValue V vocab value] := by
  unfold addValue writtenValue
  split_ifs <;> rfl

/-- C15: `handleParameterGetterGroup` returns true exactly for a request of two elements
for which `getParameters` succeeds, and then the reply is exactly one two-element list
`(vocab, value)` per entry of the map, in ascending order of the key, the value written as
`addValue` types it; the map holds the parameters returned, and is their listing itself when
that is in ascending key order. -/
theorem handleParameterGetterGroup_spec {C : Type} (V : CartesianVocabs) (R : RpcResponder C)
    (ctl : C) (input out : Bottle) :
    ((handleParameterGetterGroup V R ctl input out).1 = true ↔
      input.length = 2 ∧ (R.iCartesianControl.getParameters ctl).1.1 = true) ∧
    ((handleParameterGetterGroup V R ctl input out).1 = true →
      KeysAscending (buildMap (R.iCartesianControl.getParameters ctl).1.2) ∧
      (∀ key, List.lookup key (buildMap (R.iCartesianControl.getParameters ctl).1.2)
        = List.lookup key (R.iCartesianControl.getParameters ctl).1.2) ∧
      (handleParameterGetterGroup V R ctl input out).2.1
        = out ++ (buildMap (R.iCartesianControl.getParameters ctl).1.2).map
            (fun it => Value.list [Value.vocab it.1, writtenValue V it.1 it.2])) ∧
    (KeysAscending (R.iCartesianControl.getParameters ctl).1.2 →
      buildMap (R.iCartesianControl.getParameters ctl).1.2
        = (R.iCartesianControl.getParameters ctl).1.2) := by
  have hflag : (handleParameterGetterGroup V R ctl input out).1 = true ↔
      input.length = 2 ∧ (R.iCartesianControl.getParameters ctl).1.1 = true := by
    by_cases h2 : input.length = 2
    · simp only [handleParameterGetterGroup, if_pos h2]
      cases hc : (R.iCartesianControl.getParameters ctl).1.1 <;> simp [h2]
    · simp only [handleParameterGetterGroup, if_neg h2]
      simp [h2]
  refine ⟨hflag, ?_, buildMap_of_ascending _⟩
  intro htrue
  obtain ⟨h2, hok⟩ := hflag.mp htrue
  refine ⟨buildMap_ascending _, buildMap_lookup _, ?_⟩
  simp only [handleParameterGetterGroup, if_pos h2, hok, Bool.not_true, Bool.false_eq_true,
    if_false, addValue_eq_written, buildMap]
  rfl

/-! ## The typing of configuration values -/

theorem truncToInt_intCast (n : Int) : truncToInt (n : ℚ) = n := by
  simp [truncToInt]

theorem toInt32_range (x : ℚ) : INT32_MIN ≤ toInt32 x ∧ toInt32 x ≤ INT32_MAX := by
  unfold toInt32 INT32_MIN INT32_MAX
  generalize truncToInt x = t
  omega

theorem toInt32_intCast (n : Int) (hmin : INT32_MIN ≤ n) (hmax : n ≤ INT32_MAX) :
    toInt32 (n : ℚ) = n := by
  unfold INT32_MIN at hmin
  unfold INT32_MAX at hmax
  unfold toInt32
  rw [truncToInt_intCast]
  omega

theorem get_written (b : Bottle) (x : Value) : Bottle.get (b ++ [x]) b.length = x := by
  simp [Bottle.get, List.getD_eq_getElem?_getD]

theorem asValue_addValue_vocab (V : CartesianVocabs) (b : Bottle) (key : Int) (v : ℚ)
    (h : key = V.CONFIG_FRAME ∨ key = V.CONFIG_STREAMING_CMD) :
    asValue V key (Bottle.get (addValue V b key v) b.length) = ((toInt32 v : Int) : ℚ) := by
  rw [addValue, if_pos h, get_written, asValue, if_pos h]
  rfl

/-- C16 (amended): `addValue` writes the value as a vocab exactly when the key is
`VOCAB_CC_CONFIG_FRAME` or `VOCAB_CC_CONFIG_STREAMING_CMD` and as a float64 otherwise,
`asValue` reads it back the same way, and `asValue(key, element written by addValue(key, v))`
is `v` for every `v` under the other keys and, under the two vocab-typed keys, for every
integer `v` within the range of the 32-bit `int` that a vocab holds. -/
theorem addValue_asValue_roundtrip (V : CartesianVocabs) :
    (∀ (b : Bottle) (key : Int) (v : ℚ),
      (key = V.CONFIG_FRAME ∨ key = V.CONFIG_STREAMING_CMD) →
        addValue V b key v = b ++ [Value.vocab (toInt32 v)]) ∧
    (∀ (b : Bottle) (key : Int) (v : ℚ),
      ¬ (key = V.CONFIG_FRAME ∨ key = V.CONFIG_STREAMING_CMD) →
        addValue V b key v = b ++ [Value.float64 v]) ∧
    (∀ (key : Int) (x : Value),
      (key = V.CONFIG_FRAME ∨ key = V.CONFIG_STREAMING_CMD) → asValue V key x = (x.asVocab : ℚ)) ∧
    (∀ (key : Int) (x : Value),
      ¬ (key = V.CONFIG_FRAME ∨ key = V.CONFIG_STREAMING_CMD) → asValue V key x = x.asFloat64) ∧
    (∀ (b : Bottle) (key : Int) (v : ℚ),
      ¬ (key = V.CONFIG_FRAME ∨ key = V.CONFIG_STREAMING_CMD) →
        asValue V key (Bottle.get (addValue V b key v) b.length) = v) ∧
    (∀ (b : Bottle) (key : Int) (n : Int),
      (key = V.CONFIG_FRAME ∨ key = V.CONFIG_STREAMING_CMD) →
      INT32_MIN ≤ n → n ≤ INT32_MAX →
        asValue V key (Bottle.get (addValue V b key (n : ℚ)) b.length) = (n : ℚ)) := by
  refine ⟨?_, ?_, ?_, ?_, ?_, ?_⟩
  · intro b key v h
    simp only [addValue, if_pos h]
  · intro b key v h
    simp only [addValue, if_neg h]
  · intro key x h
    simp only [asValue, if_pos h]
  · intro key x h
    simp only [asValue, if_neg h]
  · intro b key v h
    simp only [addValue, asValue, if_neg h, get_written, Value.asFloat64]
  · intro b key n h hmin hmax
    rw [asValue_addValue_vocab V b key (n : ℚ) h, toInt32_intCast n hmin hmax]

/-- C16 as stated fails: under the vocab-typed key `VOCAB_CC_CONFIG_FRAME` the integer value
`2147483648`, one past the greatest 32-bit `int`, is not read back: a vocab holds a 32-bit
`int`, so what is read back is at most `2147483647`. -/
theorem addValue_asValue_roundtrip_counterexample :
    asValue demoVocabs demoVocabs.CONFIG_FRAME
        (Bottle.get (addValue demoVocabs [] demoVocabs.CONFIG_FRAME ((2147483648 : Int) : ℚ)) 0)
      ≠ ((2147483648 : Int) : ℚ) ∧
    asValue demoVocabs demoVocabs.CONFIG_FRAME
        (Bottle.get (addValue demoVocabs [] demoVocabs.CONFIG_FRAME ((2147483648 : Int) : ℚ)) 0)
      ≤ ((2147483647 : Int) : ℚ) := by
  have hkey : demoVocabs.CONFIG_FRAME = demoVocabs.CONFIG_FRAME ∨
      demoVocabs.CONFIG_FRAME = demoVocabs.CONFIG_STREAMING_CMD := Or.inl rfl
  have hread : asValue demoVocabs demoVocabs.CONFIG_FRAME
      (Bottle.get (addValue demoVocabs [] demoVocabs.CONFIG_FRAME ((2147483648 : Int) : ℚ)) 0)
        = ((toInt32 ((2147483648 : Int) : ℚ) : Int) : ℚ) :=
    asValue_addValue_vocab demoVocabs [] demoVocabs.CONFIG_FRAME _ hkey
  have hrange := (toInt32_range ((2147483648 : Int) : ℚ)).2
  unfold INT32_MAX at hrange
  rw [hread]
  constructor
  · intro h
    have h2 : toInt32 ((2147483648 : Int) : ℚ) = 2147483648 := Int.cast_injective h
    omega
  · exact Int.cast_le.mpr hrange

/-! ## The number of segments of the chain that KdlSolver::open assembles -/

theorem addLinks_length (degToRad : ℚ → ℚ) (fullConfig : Config) :
    ∀ (k i : Nat) (chain : Chain),
      (∀ j, i ≤ j → j < i + k → fullConfig.link j = none →
        ∀ b, fullConfig.xyzLink j = some b → ∃ seg, xyzLinkSegment b = some seg) →
      (addLinks degToRad fullConfig k i chain).1 = true →
      (addLinks degToRad fullConfig k i chain).2.length = chain.length + k := by
  intro k
  induction k with
  | zero =>
    intro i chain _ _
    simp [addLinks]
  | succ k ih =>
    intro i chain htypes h
    have hrest : ∀ j, i + 1 ≤ j → j < i + 1 + k → fullConfig.link j = none →
        ∀ b, fullConfig.xyzLink j = some b → ∃ seg, xyzLinkSegment b = some seg :=
      fun j h1 h2 => htypes j (by omega) (by omega)
    cases hlink : fullConfig.link i with
    | some bLink =>
      simp only [addLinks, hlink] at h ⊢
      rw [ih (i + 1) _ hrest h, List.length_append, List.length_singleton]
      omega
    | none =>
      cases hxyz : fullConfig.xyzLink i with
      | none =>
        simp only [addLinks, hlink, hxyz] at h
        exact absurd h (by simp)
      | some b =>
        obtain ⟨seg, hseg⟩ := htypes i (le_refl _) (by omega) hlink b hxyz
        simp only [addLinks, hlink, hxyz, hseg] at h ⊢
        rw [ih (i + 1) _ hrest h, List.length_append, List.length_singleton]
        omega

theorem addLinks_missing_group (degToRad : ℚ → ℚ) (fullConfig : Config) :
    ∀ (k i : Nat) (chain : Chain),
      (∃ j, i ≤ j ∧ j < i + k ∧ fullConfig.link j = none ∧ fullConfig.xyzLink j = none) →
      (addLinks degToRad fullConfig k i chain).1 = false := by
  intro k
  induction k with
  | zero =>
    rintro i chain ⟨j, h1, h2, _⟩
    omega
  | succ k ih =>
    rintro i chain ⟨j, h1, h2, hl, hx⟩
    have hrest : ∀ (c : Chain), i ≠ j →
        (addLinks degToRad fullConfig k (i + 1) c).1 = false := by
      intro c hne
      exact ih (i + 1) c ⟨j, by omega, by omega, hl, hx⟩
    by_cases hij : i = j
    · subst hij
      simp only [addLinks, hl, hx]
    · cases hlink : fullConfig.link i with
      | some bLink =>
        simp only [addLinks, hlink]
        exact hrest _ hij
      | none =>
        cases hxyz : fullConfig.xyzLink i with
        | none => simp only [addLinks, hlink, hxyz]
        | some b =>
          cases hseg : xyzLinkSegment b with
          | none =>
            simp only [addLinks, hlink, hxyz, hseg]
            exact hrest _ hij
          | some seg =>
            simp only [addLinks, hlink, hxyz, hseg]
            exact hrest _ hij

theorem open_chain_of_links {S : Type} (degToRad : ℚ → ℚ)
    (create : Chain → ConfigurationSelectorFactory → Option S)
    (self : KdlSolver S) (fullConfig : Config)
    (h : (kdlSolverOpen degToRad create self fullConfig).1 = true) :
    (addLinks degToRad fullConfig (fullConfig.numLinks.getD DEFAULT_NUM_LINKS).toNat 0
        (self.chain ++ [⟨JointType.None, 1,
          frameOfMatrix ((getMatrixFromProperties fullConfig.H0).getD eye4), none⟩])).1 = true ∧
    (kdlSolverOpen degToRad create self fullConfig).2.chain
      = (addLinks degToRad fullConfig (fullConfig.numLinks.getD DEFAULT_NUM_LINKS).toNat 0
          (self.chain ++ [⟨JointType.None, 1,
            frameOfMatrix ((getMatrixFromProperties fullConfig.H0).getD eye4), none⟩])).2
        ++ [⟨JointType.None, 1,
          frameOfMatrix ((getMatrixFromProperties fullConfig.HN).getD eye4), none⟩] := by
  rcases hlinks : addLinks degToRad fullConfig (fullConfig.numLinks.getD DEFAULT_NUM_LINKS).toNat 0
      (self.chain ++ [⟨JointType.None, 1,
        frameOfMatrix ((getMatrixFromProperties fullConfig.H0).getD eye4), none⟩])
    with ⟨ok, chainL⟩
  cases ok with
  | false =>
    simp only [kdlSolverOpen, hlinks] at h
    exact absurd h (by simp)
  | true =>
    rw [hlinks]
    refine ⟨rfl, ?_⟩
    simp only [kdlSolverOpen, hlinks]
    split_ifs <;> (repeat' split) <;> rfl

/-- For a device opened once from its constructed state, a non-negative `numLinks` and
link groups whose `Type`, where read, is a joint type: a successful `open` leaves
`numLinks + 2` segments, and an index with neither group makes `open` return false. -/
theorem open_segments_of_recognized_types {S : Type} (degToRad : ℚ → ℚ)
    (create : Chain → ConfigurationSelectorFactory → Option S)
    (self : KdlSolver S) (fullConfig : Config)
    (hfresh : self.chain = [])
    (hnum : 0 ≤ fullConfig.numLinks.getD DEFAULT_NUM_LINKS) :
    (((∀ j, j < (fullConfig.numLinks.getD DEFAULT_NUM_LINKS).toNat → fullConfig.link j = none →
          ∀ b, fullConfig.xyzLink j = some b → ∃ seg, xyzLinkSegment b = some seg) ∧
        (kdlSolverOpen degToRad create self fullConfig).1 = true) →
      ((kdlSolverOpen degToRad create self fullConfig).2.chain.getNrOfSegments : Int)
        = fullConfig.numLinks.getD DEFAULT_NUM_LINKS + 2) ∧
    ((∃ j, j < (fullConfig.numLinks.getD DEFAULT_NUM_LINKS).toNat ∧
        fullConfig.link j = none ∧ fullConfig.xyzLink j = none) →
      (kdlSolverOpen degToRad create self fullConfig).1 = false) := by
  constructor
  · rintro ⟨htypes, h⟩
    obtain ⟨hok, hchain⟩ := open_chain_of_links degToRad create self fullConfig h
    have hlen := addLinks_length degToRad fullConfig
      (fullConfig.numLinks.getD DEFAULT_NUM_LINKS).toNat 0 _
      (fun j _ hj => htypes j (by omega)) hok
    rw [hchain, Chain.getNrOfSegments, List.length_append, hlen, hfresh]
    simp only [List.nil_append, List.length_singleton, Nat.cast_add, Nat.cast_one,
      Int.toNat_of_nonneg hnum]
    ring
  · rintro ⟨j, hj, hl, hx⟩
    have hfalse := addLinks_missing_group degToRad fullConfig
      (fullConfig.numLinks.getD DEFAULT_NUM_LINKS).toNat 0
      (self.chain ++ [⟨JointType.None, 1,
        frameOfMatrix ((getMatrixFromProperties fullConfig.H0).getD eye4), none⟩])
      ⟨j, Nat.zero_le _, by omega, hl, hx⟩
    cases hres : (kdlSolverOpen degToRad create self fullConfig).1 with
    | false => rfl
    | true =>
      have := (open_chain_of_links degToRad create self fullConfig hres).1
      rw [hfalse] at this
      exact absurd this (by simp)

/-- C19 fails on the code: with `numLinks` 1 and an `xyzLink_0` whose `Type` is `RotW`, not
a joint type, `open` returns true and the chain holds 2 segments (`H0` and `HN`), not
`numLinks + 2 = 3`. -/
theorem open_unrecognized_type_shorter_chain :
    badTypeConfig.numLinks = some 1 ∧
    badTypeConfig.link 0 = none ∧
    (badTypeConfig.xyzLink 0).map XyzLinkGroup.type = some (some "RotW") ∧
    (kdlSolverOpen demoDegToRad demoCreateNone (KdlSolver.fresh Unit) badTypeConfig).1 = true ∧
    (kdlSolverOpen demoDegToRad demoCreateNone (KdlSolver.fresh Unit)
      badTypeConfig).2.chain.getNrOfSegments = 2 := by
  have hlinks : addLinks demoDegToRad badTypeConfig 1 0
      [⟨JointType.None, 1, frameOfMatrix eye4, none⟩]
        = (true, [⟨JointType.None, 1, frameOfMatrix eye4, none⟩]) := by
    simp [addLinks, badTypeConfig, xyzLinkSegment]
  have h1 : badTypeConfig.numLinks = some 1 := rfl
  have h2 : badTypeConfig.H0 = none := rfl
  have h3 : badTypeConfig.HN = none := rfl
  have h4 : badTypeConfig.ik = none := rfl
  have h5 : badTypeConfig.weights = none := rfl
  have hopen : kdlSolverOpen demoDegToRad demoCreateNone (KdlSolver.fresh Unit) badTypeConfig
      = (true, { chain := [⟨JointType.None, 1, frameOfMatrix eye4, none⟩,
                    ⟨JointType.None, 1, frameOfMatrix eye4, none⟩],
                 originalChain := [⟨JointType.None, 1, frameOfMatrix eye4, none⟩,
                    ⟨JointType.None, 1, frameOfMatrix eye4, none⟩],
                 gravity := badTypeConfig.gravity.getD (0, 0, -981 / 100),
                 ikSolverPos := some (IkSolverPos.LMA
                   [⟨JointType.None, 1, frameOfMatrix eye4, none⟩,
                    ⟨JointType.None, 1, frameOfMatrix eye4, none⟩] DEFAULT_LMA_WEIGHTS) }) := by
    unfold kdlSolverOpen
    simp only [h1, h2, h3, h4, h5, KdlSolver.fresh, getMatrixFromProperties, Option.map_none',
      Option.getD_none, Option.getD_some, List.nil_append, show Int.toNat 1 = 1 from rfl, hlinks,
      DEFAULT_IK_SOLVER, if_true]
    simp [parseLmaFromBottle, DEFAULT_LMA_WEIGHTS]
  refine ⟨rfl, rfl, rfl, ?_, ?_⟩
  · rw [hopen]
  · rw [hopen]
    rfl

/-! ## Evaluations of the RPC handlers on the demonstration responder -/

/-- A `movj` request with two coordinates reaches the method and is acknowledged. -/
theorem demo_consumer_ok :
    handleConsumerCmdMsg demoVocabs demoResponder []
        [Value.string "movj", Value.float64 1, Value.float64 2] [] demoController.movj
      = (true, [Value.vocab demoVocabs.OK], ["movj"]) := by
  rfl

/-- A `movj` request without coordinates fails and the log of calls stays empty. -/
theorem demo_consumer_no_coordinate :
    handleConsumerCmdMsg demoVocabs demoResponder [] [Value.string "movj"] [] demoController.movj
      = (false, [Value.vocab demoVocabs.FAILED], []) := by
  rfl

/-- The parameters `(2, 4)` and `(1, 3)` are listed in ascending key order. -/
theorem demo_getter_group :
    handleParameterGetterGroup demoVocabs demoResponder []
        [Value.string "get", Value.string "prms"] []
      = (true, [Value.list [Value.vocab 1, Value.float64 3],
          Value.list [Value.vocab 2, Value.float64 4]], ["getParameters"]) := by
  rfl

/-- A group request whose second pair has three items fails without a call. -/
theorem demo_setter_group_malformed :
    handleParameterSetterGroup demoVocabs demoResponder []
        [Value.string "set", Value.string "prms",
          Value.list [Value.vocab 1, Value.float64 3],
          Value.list [Value.vocab 2, Value.float64 4, Value.float64 5]] []
      = (false, [Value.vocab demoVocabs.FAILED], []) := by
  rfl

/-- The reply to `stat`: the state vocab, the three coordinates and the timestamp. -/
theorem demo_stat :
    handleStatMsg demoVocabs demoResponder [] [Value.string "stat"] []
      = (true, [Value.vocab 7, Value.float64 1, Value.float64 2, Value.float64 3,
          Value.float64 5], ["stat"]) := by
  rfl

/-- The reply to `inv` holds the values returned by the method and no status vocab. -/
theorem demo_inv :
    handleFunctionCmdMsg demoVocabs demoResponder [] [Value.string "inv", Value.float64 4] []
        demoController.inv
      = (true, [Value.float64 (4 + 1)], ["inv"]) := by
  rfl

end roboticslab
